import Mathlib

/-!
Verification of the checkout / stock-consistency core of the
1tsndre/mini-go-project marketplace backend.

The embedding models the order, cart and payment services of the
store-service (service/order_service.go, service/cart_service.go,
repository/order_repository.go, repository/cart_repository.go,
repository/product_repository.go, constant definitions) as pure functions
over an explicit database state.  Go `int` values are modelled as `Int`,
`decimal.Decimal` money values as exact integers (`Int`, a fixed-point
scaling; the code only ever multiplies a decimal by an integer quantity and
adds, both exact), UUIDs as `Nat`, and statuses as the `String` constants
the code uses.  Fallible repository writes are driven by explicit
success/failure oracles (one Bool per call site, indexed by loop position
where the code calls in a loop), so that every error branch of the source
is reachable in the model.  Reads never fail in the model: a missing row is
`none`, which is how the services treat read errors ("not found").
Timestamps (UpdatedAt, PaidAt) are not modelled.
-/

namespace MiniGo

/-! Status constants from store-service/internal/constant/order_status.go. -/

def OrderStatusPending : String := "pending"

def OrderStatusPaid : String := "paid"

def OrderStatusProcessing : String := "processing"

def OrderStatusShipping : String := "shipping"

def OrderStatusShipped : String := "shipped"

def OrderStatusCompleted : String := "completed"

def OrderStatusCancelled : String := "cancelled"

/-- CancellableStatuses: the Go map literal with default-false lookup. -/
def CancellableStatuses (s : String) : Bool :=
  s == OrderStatusPending || s == OrderStatusPaid || s == OrderStatusProcessing

def PaymentStatusPending : String := "pending"

def PaymentStatusSuccess : String := "success"

def PaymentStatusFailed : String := "failed"

/-- Lock keys.  The Go code formats "stock_lock:%s" and "cart_lock:%s" over
UUID strings (constant/redis_keys.go); the two formats are injective with
disjoint ranges, which the two constructors model. -/
inductive LockKey where
  | stock (productId : Nat)
  | cart (userId : Nat)
deriving DecidableEq, Repr

/-! Data model from store-service/internal/model. -/

structure Product where
  id : Nat
  storeId : Nat
  name : String
  price : Int
  stock : Int
deriving DecidableEq, Repr

structure CartItem where
  productId : Nat
  name : String
  price : Int
  quantity : Int
deriving DecidableEq, Repr

structure Cart where
  userId : Nat
  items : List CartItem
deriving DecidableEq, Repr

structure OrderItem where
  productId : Nat
  quantity : Int
  price : Int
deriving DecidableEq, Repr

structure Order where
  id : Nat
  userId : Nat
  status : String
  totalAmount : Int
  shippingAddress : String
  orderItems : List OrderItem
deriving DecidableEq, Repr

structure Payment where
  orderId : Nat
  status : String
deriving DecidableEq, Repr

structure Store where
  id : Nat
  userId : Nat
deriving DecidableEq, Repr

/-- The durable state the services read and write, plus the lock store.
`locks` is the multiset (as a list) of currently held lock keys. -/
structure DB where
  products : List Product
  carts : List Cart
  orders : List Order
  payments : List Payment
  stores : List Store
  locks : List LockKey
  nextOrderId : Nat
deriving DecidableEq, Repr

/-! Repository operations (repository/product_repository.go,
order_repository.go, cart_repository.go, store_repository.go).  Row updates
are keyed WHERE-id updates, modelled as a map over the row list. -/

def findProduct (products : List Product) (id : Nat) : Option Product :=
  products.find? (fun p => p.id == id)

def setStock (products : List Product) (id : Nat) (q : Int) : List Product :=
  products.map (fun p => if p.id == id then { p with stock := q } else p)

def productFindByID (db : DB) (id : Nat) : Option Product :=
  findProduct db.products id

def productUpdateStock (db : DB) (id : Nat) (q : Int) : DB :=
  { db with products := setStock db.products id q }

def orderFindByID (db : DB) (id : Nat) : Option Order :=
  db.orders.find? (fun o => o.id == id)

def orderUpdateStatus (db : DB) (id : Nat) (status : String) : DB :=
  { db with orders := db.orders.map (fun o => if o.id == id then { o with status := status } else o) }

def findPaymentByOrderID (db : DB) (orderId : Nat) : Option Payment :=
  db.payments.find? (fun p => p.orderId == orderId)

def updatePayment (db : DB) (pay : Payment) : DB :=
  { db with payments := db.payments.map (fun p => if p.orderId == pay.orderId then pay else p) }

def storeFindByUserID (db : DB) (userId : Nat) : Option Store :=
  db.stores.find? (fun s => s.userId == userId)

/-- cartRepository.GetCart: cache-first, falling back to the durable join of
basket rows; a buyer with no rows gets an empty cart, not an error (the
"cart not found" branch of Checkout fires only on a storage failure, which
the embedding does not model). -/
def cartGetCart (db : DB) (userId : Nat) : Cart :=
  match db.carts.find? (fun c => c.userId == userId) with
  | some c => c
  | none => { userId := userId, items := [] }

/-- cartRepository.SaveCart: delete all rows for the buyer, reinsert the
current item set, in one transaction. -/
def cartSaveCart (db : DB) (cart : Cart) : DB :=
  { db with carts := db.carts.filter (fun c => c.userId != cart.userId) ++ [cart] }

/-- cartRepository.DeleteCart: remove the buyer's rows and invalidate the
cache key. -/
def cartDeleteCart (db : DB) (userId : Nat) : DB :=
  { db with carts := db.carts.filter (fun c => c.userId != userId) }

/-! Checkout (orderService.Checkout, service/order_service.go). -/

/-- Per-call success oracles for the fallible operations Checkout performs:
lock acquisitions and apply-phase stock writes are indexed by cart/snapshot
position, rollback stock writes by snapshot position. -/
structure CheckoutEnv where
  lockOk : Nat → Bool
  applyOk : Nat → Bool
  rollbackOk : Nat → Bool
  createOk : Bool
  deleteCartOk : Bool

inductive CheckoutErr where
  /-- "cart not found": only reachable on a storage read failure, which the
  embedding does not model (GetCart returns an empty cart for a missing row). -/
  | cartNotFound
  | cartEmpty
  /-- "failed to process checkout, please try again" (lock acquisition failed). -/
  | checkoutUnavailable
  | productNotFound (productId : Nat)
  | insufficientStock (name : String)
  /-- "failed to process checkout" (apply-phase stock write failed). -/
  | checkoutFailed
  /-- "failed to create order" (commit-phase order insert failed). -/
  | createOrderFailed
deriving DecidableEq, Repr

/-- Release the acquired mutexes in order (the deferred unlock loop). -/
def releaseAll (locks : List LockKey) (acquired : List LockKey) : List LockKey :=
  acquired.foldl (fun l k => l.erase k) locks

/-- The lock-acquisition loop: one stock lock per cart item, in cart order.
On a failed acquisition all already-acquired mutexes are unlocked and the
loop fails; on success it returns the lock store and the acquired mutexes. -/
def lockPhase (env : CheckoutEnv) : List LockKey → List CartItem → Nat → List LockKey →
    Except (List LockKey) (List LockKey × List LockKey)
  | locks, [], _, acquired => .ok (locks, acquired)
  | locks, item :: rest, i, acquired =>
    if env.lockOk i then
      lockPhase env (locks ++ [LockKey.stock item.productId]) rest (i + 1)
        (acquired ++ [LockKey.stock item.productId])
    else
      .error (releaseAll locks acquired)

/-- The snapshot captured per cart line during validation: the product row
as read, the order line to be frozen, and the decremented stock value. -/
structure ItemSnapshot where
  product : Product
  orderItem : OrderItem
  newStock : Int
deriving DecidableEq, Repr

/-- Validation phase: re-read every product, check stock sufficiency,
capture snapshots and accumulate the total from the current catalog price.
Read-only. -/
def validatePhase (products : List Product) : List CartItem →
    Except CheckoutErr (List ItemSnapshot × Int)
  | [] => .ok ([], 0)
  | item :: rest =>
    match findProduct products item.productId with
    | none => .error (.productNotFound item.productId)
    | some product =>
      if product.stock < item.quantity then
        .error (.insufficientStock product.name)
      else
        match validatePhase products rest with
        | .error e => .error e
        | .ok (snaps, total) =>
          .ok ({ product := product,
                 orderItem := { productId := item.productId, quantity := item.quantity,
                                price := product.price },
                 newStock := product.stock - item.quantity } :: snaps,
               product.price * item.quantity + total)

/-- Apply phase: sequentially write each snapshot's decremented stock.  A
failing write at position i returns the state as of the failure together
with i, for the caller to roll back positions 0..i-1. -/
def applyPhase (env : CheckoutEnv) : List Product → List ItemSnapshot → Nat →
    Except (List Product × Nat) (List Product)
  | products, [], _ => .ok products
  | products, snap :: rest, i =>
    if env.applyOk i then
      applyPhase env (setStock products snap.product.id snap.newStock) rest (i + 1)
    else
      .error (products, i)

/-- Rollback loop: restore each given snapshot's pre-decrement stock value,
in order; a failing restore write is logged and skipped. -/
def rollbackSnaps (env : CheckoutEnv) : List Product → List ItemSnapshot → Nat → List Product
  | products, [], _ => products
  | products, snap :: rest, j =>
    rollbackSnaps env
      (if env.rollbackOk j then setStock products snap.product.id snap.product.stock else products)
      rest (j + 1)

/-- orderService.Checkout: lock acquisition, read-only validation,
sequential stock apply with prefix rollback, order creation with full
rollback, cart clear (failure logged only), all locks released on every
return path.  The order-created event publication carries no state and is
not modelled. -/
def Checkout (env : CheckoutEnv) (db : DB) (userId : Nat) (shippingAddress : String) :
    Except CheckoutErr Order × DB :=
  let cart := cartGetCart db userId
  if cart.items.isEmpty then (.error .cartEmpty, db)
  else
    match lockPhase env db.locks cart.items 0 [] with
    | .error locks1 => (.error .checkoutUnavailable, { db with locks := locks1 })
    | .ok (locks1, mutexes) =>
      match validatePhase db.products cart.items with
      | .error e => (.error e, { db with locks := releaseAll locks1 mutexes })
      | .ok (snapshots, totalAmount) =>
        match applyPhase env db.products snapshots 0 with
        | .error (products1, i) =>
          (.error .checkoutFailed,
           { db with products := rollbackSnaps env products1 (snapshots.take i) 0,
                     locks := releaseAll locks1 mutexes })
        | .ok products1 =>
          let order : Order :=
            { id := db.nextOrderId, userId := userId, status := OrderStatusPending,
              totalAmount := totalAmount, shippingAddress := shippingAddress,
              orderItems := snapshots.map (fun s => s.orderItem) }
          if env.createOk then
            let db1 : DB :=
              { db with products := products1, orders := db.orders ++ [order],
                        nextOrderId := db.nextOrderId + 1 }
            let db2 := if env.deleteCartOk then cartDeleteCart db1 userId else db1
            (.ok order, { db2 with locks := releaseAll locks1 mutexes })
          else
            (.error .createOrderFailed,
             { db with products := rollbackSnaps env products1 snapshots 0,
                       locks := releaseAll locks1 mutexes })

/-! CancelOrder (orderService.CancelOrder). -/

structure CancelEnv where
  lockOk : Nat → Bool
  updateStockOk : Nat → Bool
  updateStatusOk : Bool

inductive CancelErr where
  | orderNotFound
  | forbidden
  | invalidStatus (status : String)
  /-- "failed to cancel order" (status write failed). -/
  | cancelFailed
deriving DecidableEq, Repr

/-- The per-line stock restore loop of CancelOrder: acquire the product's
stock lock (failure: skip the line), re-read the product (failure: unlock
and skip), write stock + quantity (failure logged only), unlock. -/
def restoreStockLoop (env : CancelEnv) : List Product → List LockKey → List OrderItem → Nat →
    List Product × List LockKey
  | products, locks, [], _ => (products, locks)
  | products, locks, item :: rest, i =>
    if env.lockOk i then
      let locks1 := locks ++ [LockKey.stock item.productId]
      match findProduct products item.productId with
      | none => restoreStockLoop env products (locks1.erase (LockKey.stock item.productId)) rest (i + 1)
      | some product =>
        let products1 :=
          if env.updateStockOk i then setStock products item.productId (product.stock + item.quantity)
          else products
        restoreStockLoop env products1 (locks1.erase (LockKey.stock item.productId)) rest (i + 1)
    else
      restoreStockLoop env products locks rest (i + 1)

/-- orderService.CancelOrder: owner check, cancellable-status check,
best-effort per-line stock restore under lock, then the status write. -/
def CancelOrder (env : CancelEnv) (db : DB) (userId : Nat) (orderId : Nat) :
    Except CancelErr Unit × DB :=
  match orderFindByID db orderId with
  | none => (.error .orderNotFound, db)
  | some order =>
    if order.userId == userId then
      if CancellableStatuses order.status then
        let pl := restoreStockLoop env db.products db.locks order.orderItems 0
        let db1 : DB := { db with products := pl.1, locks := pl.2 }
        if env.updateStatusOk then (.ok (), orderUpdateStatus db1 orderId OrderStatusCancelled)
        else (.error .cancelFailed, db1)
      else (.error (.invalidStatus order.status), db)
    else (.error .forbidden, db)

/-! UpdateOrderStatus (orderService.UpdateOrderStatus, seller Advance). -/

structure AdvanceEnv where
  updateStatusOk : Bool

inductive AdvanceErr where
  | orderNotFound
  /-- "cannot transition from status %s" (unmapped source status). -/
  | noValidTransition (src : String)
  /-- "invalid status transition from %s to %s". -/
  | invalidTransition (src target : String)
  | storeNotFound
  /-- "forbidden: no items from your store in this order". -/
  | forbidden
  | updateFailed
deriving DecidableEq, Repr

/-- The validTransitions map literal of UpdateOrderStatus. -/
def validTransitions (status : String) : Option (List String) :=
  if status == OrderStatusPaid then some [OrderStatusProcessing]
  else if status == OrderStatusProcessing then some [OrderStatusShipping]
  else if status == OrderStatusShipping then some [OrderStatusShipped]
  else if status == OrderStatusShipped then some [OrderStatusCompleted]
  else none

/-- The seller-ownership scan: some order line references a product supplied
by the given store (a missing product row is skipped). -/
def hasItemFromStore (db : DB) (storeId : Nat) (items : List OrderItem) : Bool :=
  items.any (fun item =>
    match productFindByID db item.productId with
    | none => false
    | some p => p.storeId == storeId)

/-- orderService.UpdateOrderStatus: source-status mapping, target check,
seller store ownership check, then the status write. -/
def UpdateOrderStatus (env : AdvanceEnv) (db : DB) (sellerId : Nat) (orderId : Nat)
    (status : String) : Except AdvanceErr Unit × DB :=
  match orderFindByID db orderId with
  | none => (.error .orderNotFound, db)
  | some order =>
    match validTransitions order.status with
    | none => (.error (.noValidTransition order.status), db)
    | some allowed =>
      if allowed.contains status then
        match storeFindByUserID db sellerId with
        | none => (.error .storeNotFound, db)
        | some store =>
          if hasItemFromStore db store.id order.orderItems then
            if env.updateStatusOk then (.ok (), orderUpdateStatus db orderId status)
            else (.error .updateFailed, db)
          else (.error .forbidden, db)
      else (.error (.invalidTransition order.status status), db)

/-! ProcessPaymentResult (orderService.ProcessPaymentResult, the payment
reconciler entry point called by PaymentResultConsumer). -/

structure PaymentEnv where
  updatePaymentOk : Bool
  updateStatusOk : Bool

inductive PaymentErr where
  | orderNotFound
  | updatePaymentFailed
  | updateStatusFailed
deriving DecidableEq, Repr

/-- orderService.ProcessPaymentResult: look up the order (missing: hard
failure), look up the payment record (missing is not an error).  On success:
mark the payment record success (if present), then set the order status to
paid — unconditionally on the current status.  On failure: mark the payment
record failed (if present) and leave the order untouched. -/
def ProcessPaymentResult (env : PaymentEnv) (db : DB) (orderId : Nat) (success : Bool) :
    Except PaymentErr Unit × DB :=
  match orderFindByID db orderId with
  | none => (.error .orderNotFound, db)
  | some _order =>
    match findPaymentByOrderID db orderId, success with
    | some payment, true =>
      if env.updatePaymentOk then
        let db1 := updatePayment db { payment with status := PaymentStatusSuccess }
        if env.updateStatusOk then (.ok (), orderUpdateStatus db1 orderId OrderStatusPaid)
        else (.error .updateStatusFailed, db1)
      else (.error .updatePaymentFailed, db)
    | none, true =>
      if env.updateStatusOk then (.ok (), orderUpdateStatus db orderId OrderStatusPaid)
      else (.error .updateStatusFailed, db)
    | some payment, false =>
      if env.updatePaymentOk then (.ok (), updatePayment db { payment with status := PaymentStatusFailed })
      else (.error .updatePaymentFailed, db)
    | none, false => (.ok (), db)

/-! Cart service (cartService, service/cart_service.go). -/

structure CartEnv where
  cartLockOk : Bool
  saveOk : Bool

inductive CartErr where
  | invalidProductId
  | invalidQuantity
  | productNotFound
  | insufficientStock
  /-- "failed to acquire cart lock, please try again". -/
  | lockFailed
  | itemNotFound
  | saveFailed
deriving DecidableEq, Repr

/-- The in-place merge of AddItem: bump the quantity of the first line
matching the product (the loop breaks at the first match). -/
def bumpFirst (items : List CartItem) (productId : Nat) (quantity : Int) : List CartItem :=
  match items with
  | [] => []
  | it :: rest =>
    if it.productId == productId then { it with quantity := it.quantity + quantity } :: rest
    else it :: bumpFirst rest productId quantity

/-- The in-place update of UpdateItem: set the quantity of the first line
matching the product. -/
def setQtyFirst (items : List CartItem) (productId : Nat) (quantity : Int) : List CartItem :=
  match items with
  | [] => []
  | it :: rest =>
    if it.productId == productId then { it with quantity := quantity } :: rest
    else it :: setQtyFirst rest productId quantity

def hasLine (items : List CartItem) (productId : Nat) : Bool :=
  items.any (fun it => it.productId == productId)

/-- cartService.AddItem: validate quantity and product, check stock, take
the buyer's cart lock, merge into an existing line or append a new one, and
save.  (GetCart falling back to a fresh empty cart on a read error is
absorbed by the total GetCart of the model.) -/
def AddItem (env : CartEnv) (db : DB) (userId : Nat) (productId : Nat) (quantity : Int) :
    Except CartErr Cart × DB :=
  if quantity ≤ 0 then (.error .invalidQuantity, db)
  else
    match productFindByID db productId with
    | none => (.error .productNotFound, db)
    | some product =>
      if product.stock < quantity then (.error .insufficientStock, db)
      else if env.cartLockOk then
        let cart := cartGetCart db userId
        let items :=
          if hasLine cart.items productId then bumpFirst cart.items productId quantity
          else cart.items ++ [{ productId := productId, name := product.name,
                                price := product.price, quantity := quantity }]
        let cart1 : Cart := { cart with items := items }
        if env.saveOk then (.ok cart1, cartSaveCart db cart1)
        else (.error .saveFailed, db)
      else (.error .lockFailed, db)

/-- cartService.UpdateItem: validate quantity, take the cart lock, set the
matching line's quantity, save; a missing line is an error. -/
def UpdateItem (env : CartEnv) (db : DB) (userId : Nat) (productId : Nat) (quantity : Int) :
    Except CartErr Cart × DB :=
  if quantity ≤ 0 then (.error .invalidQuantity, db)
  else if env.cartLockOk then
    let cart := cartGetCart db userId
    if hasLine cart.items productId then
      let cart1 : Cart := { cart with items := setQtyFirst cart.items productId quantity }
      if env.saveOk then (.ok cart1, cartSaveCart db cart1)
      else (.error .saveFailed, db)
    else (.error .itemNotFound, db)
  else (.error .lockFailed, db)

/-- cartService.RemoveItem: take the cart lock, remove the first matching
line, save; a missing line is an error. -/
def RemoveItem (env : CartEnv) (db : DB) (userId : Nat) (productId : Nat) :
    Except CartErr Cart × DB :=
  if env.cartLockOk then
    let cart := cartGetCart db userId
    if hasLine cart.items productId then
      let cart1 : Cart := { cart with items := cart.items.eraseP (fun it => it.productId == productId) }
      if env.saveOk then (.ok cart1, cartSaveCart db cart1)
      else (.error .saveFailed, db)
    else (.error .itemNotFound, db)
  else (.error .lockFailed, db)

/-- The cart well-formedness invariant: at most one line per product id. -/
def CartInv (c : Cart) : Prop :=
  (c.items.map (fun it => it.productId)).Nodup

/-- The stock locks the checkout lock loop acquires, in cart order. -/
def lockKeys (items : List CartItem) : List LockKey :=
  items.map (fun it => LockKey.stock it.productId)

/-- The cumulative effect of a fully successful apply phase. -/
def applyAll (products : List Product) (snaps : List ItemSnapshot) : List Product :=
  snaps.foldl (fun ps s => setStock ps s.product.id s.newStock) products

/-! Concrete sample states, used to instantiate the theorems below. -/

def sampleOrder (st : String) (items : List OrderItem) : Order :=
  { id := 1, userId := 2, status := st, totalAmount := 10, shippingAddress := "addr",
    orderItems := items }

def sampleDB (st : String) : DB :=
  { products := [], carts := [], orders := [sampleOrder st []], payments := [],
    stores := [], locks := [], nextOrderId := 2 }

def sampleProduct (pid : Nat) (price stock : Int) : Product :=
  { id := pid, storeId := 7, name := "p", price := price, stock := stock }

def allOkPaymentEnv : PaymentEnv := { updatePaymentOk := true, updateStatusOk := true }

def allOkCheckoutEnv : CheckoutEnv :=
  { lockOk := fun _ => true, applyOk := fun _ => true, rollbackOk := fun _ => true,
    createOk := true, deleteCartOk := true }

def allOkCancelEnv : CancelEnv :=
  { lockOk := fun _ => true, updateStockOk := fun _ => true, updateStatusOk := true }

def allOkCartEnv : CartEnv := { cartLockOk := true, saveOk := true }

/-- A one-line pending order over product 3 (stock 3, quantity 2): the
cancellation scenario of the spec. -/
def dbC7 : DB :=
  { products := [sampleProduct 3 5 3], carts := [],
    orders := [sampleOrder OrderStatusPending [{ productId := 3, quantity := 2, price := 5 }]],
    payments := [], stores := [], locks := [], nextOrderId := 2 }

/-- A catalog with one product and no carts yet. -/
def dbC9 : DB :=
  { products := [sampleProduct 3 5 10], carts := [], orders := [], payments := [],
    stores := [], locks := [], nextOrderId := 1 }

/-- The failing-checkout scenario of the spec: same two-line cart, but product
2 has stock 0. -/
def dbC4 : DB :=
  { products := [sampleProduct 1 4 5, sampleProduct 2 9 0],
    carts := [{ userId := 2, items := [⟨1, "p", 4, 3⟩, ⟨2, "p", 9, 1⟩] }],
    orders := [], payments := [], stores := [], locks := [], nextOrderId := 1 }

/-- The snapshot validation captures for a line whose product was found. -/
def snapOf (item : CartItem) (p : Product) : ItemSnapshot :=
  { product := p,
    orderItem := { productId := item.productId, quantity := item.quantity, price := p.price },
    newStock := p.stock - item.quantity }

/-- The two-item checkout scenario of the spec: quantity 3 of product 1
(stock 5, price 4) and quantity 1 of product 2 (stock 1, price 9) in user 2's
cart. -/
def dbC5 : DB :=
  { products := [sampleProduct 1 4 5, sampleProduct 2 9 1],
    carts := [{ userId := 2, items := [⟨1, "p", 4, 3⟩, ⟨2, "p", 9, 1⟩] }],
    orders := [], payments := [], stores := [], locks := [], nextOrderId := 1 }

/-! Helper lemmas. -/

theorem findProduct_id {ps : List Product} {i : Nat} {p : Product}
    (h : findProduct ps i = some p) : p.id = i := by
  have := List.find?_some h
  simpa using this

theorem findProduct_setStock_same (ps : List Product) (i : Nat) (q : Int) :
    findProduct (setStock ps i q) i = (findProduct ps i).map (fun p => { p with stock := q }) := by
  induction ps with
  | nil => rfl
  | cons p rest ih =>
    unfold findProduct setStock at ih ⊢
    by_cases hp : p.id = i
    · simp [List.find?_cons, hp]
    · simp only [List.map_cons, if_neg (show ¬ (p.id == i) = true by simpa using hp)]
      simp only [List.find?_cons, show (p.id == i) = false by simpa using hp]
      exact ih

theorem findProduct_setStock_ne (ps : List Product) {i j : Nat} (q : Int) (h : j ≠ i) :
    findProduct (setStock ps i q) j = findProduct ps j := by
  induction ps with
  | nil => rfl
  | cons p rest ih =>
    unfold findProduct setStock at ih ⊢
    by_cases hp : p.id = i
    · have hpj : (p.id == j) = false := by
        simp only [beq_eq_false_iff_ne, ne_eq]
        intro hj
        exact h (hj ▸ hp)
      simp only [List.map_cons, if_pos (show (p.id == i) = true by simpa using hp)]
      simp only [List.find?_cons, hpj]
      exact ih
    · simp only [List.map_cons, if_neg (show ¬ (p.id == i) = true by simpa using hp)]
      cases hpj : (p.id == j) with
      | true => simp only [List.find?_cons, hpj]
      | false =>
        simp only [List.find?_cons, hpj]
        exact ih

theorem setStock_map_id (ps : List Product) (i : Nat) (q : Int) :
    (setStock ps i q).map (fun p => p.id) = ps.map (fun p => p.id) := by
  induction ps with
  | nil => rfl
  | cons p rest ih =>
    simp only [setStock, List.map_cons] at ih ⊢
    rw [ih]
    by_cases h : p.id = i
    · simp [h]
    · simp [show ¬ (p.id == i) = true by simpa using h]

theorem setStock_setStock_same (ps : List Product) (i : Nat) (q1 q2 : Int) :
    setStock (setStock ps i q1) i q2 = setStock ps i q2 := by
  induction ps with
  | nil => rfl
  | cons p rest ih =>
    simp only [setStock, List.map_cons] at ih ⊢
    rw [ih]
    by_cases h : p.id = i
    · simp [h]
    · simp [show ¬ (p.id == i) = true by simpa using h]

theorem setStock_comm_ne (ps : List Product) {i1 i2 : Nat} (q1 q2 : Int) (h : i1 ≠ i2) :
    setStock (setStock ps i1 q1) i2 q2 = setStock (setStock ps i2 q2) i1 q1 := by
  induction ps with
  | nil => rfl
  | cons p rest ih =>
    simp only [setStock, List.map_cons] at ih ⊢
    rw [ih]
    by_cases h1 : p.id = i1
    · have h2 : ¬ p.id = i2 := fun hc => h (h1 ▸ hc)
      simp [h1, h2, h]
    · by_cases h2 : p.id = i2
      · have h3 : ¬ i2 = i1 := fun hc => h hc.symm
        simp [h1, h2, h3]
      · simp [show ¬ (p.id == i1) = true by simpa using h1,
              show ¬ (p.id == i2) = true by simpa using h2]

theorem setStock_not_mem {ps : List Product} {i : Nat} (q : Int)
    (h : i ∉ ps.map (fun p => p.id)) : setStock ps i q = ps := by
  induction ps with
  | nil => rfl
  | cons p rest ih =>
    simp only [List.map_cons, List.mem_cons, not_or] at h
    simp only [setStock, List.map_cons] at ih ⊢
    rw [ih h.2]
    simp [show ¬ (p.id == i) = true by simpa using fun hc => h.1 hc.symm]

theorem setStock_found_stock {ps : List Product} {i : Nat} {p : Product}
    (hnodup : (ps.map (fun x => x.id)).Nodup) (h : findProduct ps i = some p) :
    setStock ps i p.stock = ps := by
  induction ps with
  | nil => exact absurd h (by simp [findProduct])
  | cons x rest ih =>
    simp only [List.map_cons, List.nodup_cons] at hnodup
    unfold findProduct at h ih
    by_cases hx : x.id = i
    · rw [List.find?_cons_of_pos _ (by simpa using hx)] at h
      have hp : x = p := Option.some.inj h
      subst hp
      subst hx
      have ht : setStock rest x.id x.stock = rest := setStock_not_mem _ hnodup.1
      simp only [setStock, List.map_cons] at ht ⊢
      rw [ht]
      simp only [beq_self_eq_true, if_true]
    · rw [List.find?_cons_of_neg _ (by simpa using hx)] at h
      have ht := ih hnodup.2 h
      simp only [setStock, List.map_cons] at ht ⊢
      rw [ht]
      simp [show ¬ (x.id == i) = true by simpa using hx]

theorem applyAll_nil (ps : List Product) : applyAll ps [] = ps := rfl

theorem applyAll_cons (ps : List Product) (s : ItemSnapshot) (rest : List ItemSnapshot) :
    applyAll ps (s :: rest) = applyAll (setStock ps s.product.id s.newStock) rest := rfl

theorem applyAll_find_not_mem :
    ∀ (snaps : List ItemSnapshot) (ps : List Product) (i : Nat),
    i ∉ snaps.map (fun s => s.product.id) →
    findProduct (applyAll ps snaps) i = findProduct ps i := by
  intro snaps
  induction snaps with
  | nil => intro ps i _; rfl
  | cons s rest ih =>
    intro ps i hi
    simp only [List.map_cons, List.mem_cons, not_or] at hi
    rw [applyAll_cons, ih _ _ hi.2, findProduct_setStock_ne _ _ hi.1]

theorem applyAll_map_id :
    ∀ (snaps : List ItemSnapshot) (ps : List Product),
    (applyAll ps snaps).map (fun p => p.id) = ps.map (fun p => p.id) := by
  intro snaps
  induction snaps with
  | nil => intro ps; rfl
  | cons s rest ih =>
    intro ps
    rw [applyAll_cons, ih, setStock_map_id]

theorem applyAll_find_mem :
    ∀ (snaps : List ItemSnapshot) (ps : List Product),
    (∀ s ∈ snaps, findProduct ps s.product.id = some s.product) →
    (snaps.map (fun s => s.product.id)).Nodup →
    ∀ s ∈ snaps, findProduct (applyAll ps snaps) s.product.id =
      some { s.product with stock := s.newStock } := by
  intro snaps
  induction snaps with
  | nil => intro ps _ _ s hs; cases hs
  | cons s0 rest ih =>
    intro ps hfind hnodup s hs
    simp only [List.map_cons, List.nodup_cons] at hnodup
    rw [applyAll_cons]
    rcases List.mem_cons.1 hs with hs | hs
    · subst hs
      rw [applyAll_find_not_mem rest _ _ hnodup.1, findProduct_setStock_same,
          hfind s (List.mem_cons_self _ _)]
      rfl
    · have hne : s.product.id ≠ s0.product.id := by
        intro hc
        exact hnodup.1 (hc ▸ List.mem_map_of_mem (fun t => t.product.id) hs)
      refine ih _ ?_ hnodup.2 s hs
      intro t ht
      by_cases htne : t.product.id = s0.product.id
      · exfalso
        exact hnodup.1 (htne ▸ List.mem_map_of_mem (fun t => t.product.id) ht)
      · rw [findProduct_setStock_ne _ _ htne]
        exact hfind t (List.mem_cons_of_mem _ ht)

theorem setStock_applyAll_comm :
    ∀ (snaps : List ItemSnapshot) (ps : List Product) (i : Nat) (q : Int),
    i ∉ snaps.map (fun s => s.product.id) →
    setStock (applyAll ps snaps) i q = applyAll (setStock ps i q) snaps := by
  intro snaps
  induction snaps with
  | nil => intro ps i q _; rfl
  | cons s rest ih =>
    intro ps i q hi
    simp only [List.map_cons, List.mem_cons, not_or] at hi
    rw [applyAll_cons, applyAll_cons, ih _ _ _ hi.2,
        setStock_comm_ne _ _ _ (fun hc => hi.1 hc)]

theorem rollback_applyAll (env : CheckoutEnv) (hrb : ∀ j, env.rollbackOk j = true) :
    ∀ (snaps : List ItemSnapshot) (ps : List Product) (j0 : Nat),
    (∀ s ∈ snaps, findProduct ps s.product.id = some s.product) →
    (snaps.map (fun s => s.product.id)).Nodup →
    (ps.map (fun p => p.id)).Nodup →
    rollbackSnaps env (applyAll ps snaps) snaps j0 = ps := by
  intro snaps
  induction snaps with
  | nil => intro ps j0 _ _ _; rfl
  | cons s rest ih =>
    intro ps j0 hfind hnodup hpn
    simp only [List.map_cons, List.nodup_cons] at hnodup
    rw [applyAll_cons]
    show rollbackSnaps env (applyAll (setStock ps s.product.id s.newStock) rest) (s :: rest) j0 = ps
    unfold rollbackSnaps
    rw [if_pos (hrb j0)]
    rw [setStock_applyAll_comm rest _ _ _ hnodup.1, setStock_setStock_same,
        setStock_found_stock hpn (hfind s (List.mem_cons_self _ _))]
    exact ih ps (j0 + 1) (fun t ht => hfind t (List.mem_cons_of_mem _ ht)) hnodup.2 hpn

theorem rollbackSnaps_map_id (env : CheckoutEnv) :
    ∀ (snaps : List ItemSnapshot) (ps : List Product) (j0 : Nat),
    (rollbackSnaps env ps snaps j0).map (fun p => p.id) = ps.map (fun p => p.id) := by
  intro snaps
  induction snaps with
  | nil => intro ps j0; rfl
  | cons s rest ih =>
    intro ps j0
    unfold rollbackSnaps
    by_cases h : env.rollbackOk j0 = true
    · rw [if_pos h, ih, setStock_map_id]
    · rw [if_neg h, ih]

theorem releaseAll_perm :
    ∀ (acc locks L : List LockKey), locks.Perm (L ++ acc) → (releaseAll locks acc).Perm L := by
  intro acc
  induction acc with
  | nil => intro locks L h; simpa [releaseAll] using h
  | cons k acc ih =>
    intro locks L h
    show (releaseAll (locks.erase k) acc).Perm L
    apply ih
    have h1 : locks.Perm (k :: (L ++ acc)) := h.trans List.perm_middle
    have h2 := h1.erase k
    rwa [List.erase_cons_head] at h2

theorem lockPhase_perm (env : CheckoutEnv) :
    ∀ (items : List CartItem) (locks acc L : List LockKey) (i : Nat), locks.Perm (L ++ acc) →
    (∀ locks1, lockPhase env locks items i acc = .error locks1 → locks1.Perm L) ∧
    (∀ locks1 mx, lockPhase env locks items i acc = .ok (locks1, mx) → locks1.Perm (L ++ mx)) := by
  intro items
  induction items with
  | nil =>
    intro locks acc L i h
    constructor
    · intro locks1 he; cases he
    · intro locks1 mx hok
      have h1 : locks = locks1 ∧ acc = mx := by
        have := hok
        simp [lockPhase] at this
        exact this
      rcases h1 with ⟨h1, h2⟩
      subst h1; subst h2
      exact h
  | cons item rest ih =>
    intro locks acc L i h
    by_cases hl : env.lockOk i = true
    · have hstep : lockPhase env locks (item :: rest) i acc =
          lockPhase env (locks ++ [LockKey.stock item.productId]) rest (i + 1)
            (acc ++ [LockKey.stock item.productId]) := by
        simp only [lockPhase]
        rw [if_pos hl]
      have hperm : (locks ++ [LockKey.stock item.productId]).Perm
          (L ++ (acc ++ [LockKey.stock item.productId])) := by
        rw [← List.append_assoc]
        exact h.append_right _
      have := ih (locks ++ [LockKey.stock item.productId])
        (acc ++ [LockKey.stock item.productId]) L (i + 1) hperm
      constructor
      · intro locks1 he
        exact this.1 locks1 (by rwa [hstep] at he)
      · intro locks1 mx hok
        exact this.2 locks1 mx (by rwa [hstep] at hok)
    · have hstep : lockPhase env locks (item :: rest) i acc = .error (releaseAll locks acc) := by
        simp only [lockPhase]
        rw [if_neg hl]
      constructor
      · intro locks1 he
        rw [hstep] at he
        have h1 : releaseAll locks acc = locks1 := by
          injection he
        rw [← h1]
        exact releaseAll_perm acc locks L h
      · intro locks1 mx hok
        rw [hstep] at hok
        cases hok

theorem lockPhase_ok_all (env : CheckoutEnv) :
    ∀ (items : List CartItem) (locks acc : List LockKey) (i : Nat),
    (∀ j, env.lockOk j = true) →
    lockPhase env locks items i acc = .ok (locks ++ lockKeys items, acc ++ lockKeys items) := by
  intro items
  induction items with
  | nil => intro locks acc i _; simp [lockPhase, lockKeys]
  | cons item rest ih =>
    intro locks acc i h
    simp only [lockPhase]
    rw [if_pos (h i), ih _ _ _ h]
    simp [lockKeys]

theorem lockPhase_error_exists (env : CheckoutEnv) :
    ∀ (items : List CartItem) (locks acc : List LockKey) (i : Nat),
    (∃ j, j < items.length ∧ env.lockOk (i + j) = false) →
    ∃ locks1, lockPhase env locks items i acc = .error locks1 := by
  intro items
  induction items with
  | nil =>
    intro locks acc i h
    rcases h with ⟨j, hj, _⟩
    exact absurd hj (by simp)
  | cons item rest ih =>
    intro locks acc i h
    by_cases hl : env.lockOk i = true
    · rcases h with ⟨j, hj, hfail⟩
      cases j with
      | zero => rw [Nat.add_zero] at hfail; rw [hfail] at hl; cases hl
      | succ j =>
        have := ih (locks ++ [LockKey.stock item.productId])
          (acc ++ [LockKey.stock item.productId]) (i + 1)
          ⟨j, by simpa using Nat.lt_of_succ_lt_succ hj, by
            rw [show i + 1 + j = i + (j + 1) by omega]; exact hfail⟩
        rcases this with ⟨locks1, h1⟩
        refine ⟨locks1, ?_⟩
        simp only [lockPhase]
        rwa [if_pos hl]
    · refine ⟨releaseAll locks acc, ?_⟩
      simp only [lockPhase]
      rw [if_neg hl]

theorem applyPhase_ok_all (env : CheckoutEnv) (happ : ∀ j, env.applyOk j = true) :
    ∀ (snaps : List ItemSnapshot) (ps : List Product) (i : Nat),
    applyPhase env ps snaps i = .ok (applyAll ps snaps) := by
  intro snaps
  induction snaps with
  | nil => intro ps i; rfl
  | cons s rest ih =>
    intro ps i
    simp only [applyPhase]
    rw [if_pos (happ i), ih]
    rfl

theorem applyPhase_error_at (env : CheckoutEnv) :
    ∀ (snaps : List ItemSnapshot) (ps : List Product) (i k : Nat),
    k < snaps.length →
    (∀ j, j < k → env.applyOk (i + j) = true) →
    env.applyOk (i + k) = false →
    applyPhase env ps snaps i = .error (applyAll ps (snaps.take k), i + k) := by
  intro snaps
  induction snaps with
  | nil =>
    intro ps i k hk _ _
    exact absurd hk (by simp)
  | cons s rest ih =>
    intro ps i k hk hok hfail
    cases k with
    | zero =>
      rw [Nat.add_zero] at hfail
      simp only [applyPhase]
      rw [if_neg (by rw [hfail]; exact Bool.false_ne_true)]
      simp [applyAll_nil]
    | succ k =>
      have h0 : env.applyOk i = true := by
        have := hok 0 (Nat.succ_pos k)
        rwa [Nat.add_zero] at this
      simp only [applyPhase]
      rw [if_pos h0]
      rw [ih _ (i + 1) k (by simpa using Nat.lt_of_succ_lt_succ hk)
        (fun j hj => by
          rw [show i + 1 + j = i + (j + 1) by omega]
          exact hok (j + 1) (Nat.succ_lt_succ hj))
        (by rw [show i + 1 + k = i + (k + 1) by omega]; exact hfail)]
      rw [List.take_succ_cons, applyAll_cons, show i + 1 + k = i + (k + 1) from by omega]

/-- Inversion of a successful validation: every line found its product with
sufficient stock, the snapshots record exactly the found products, and the
total is the sum of current price times quantity. -/
theorem validatePhase_ok_inv (ps : List Product) :
    ∀ (items : List CartItem) (snaps : List ItemSnapshot) (total : Int),
    validatePhase ps items = .ok (snaps, total) →
    List.Forall₂ (fun (item : CartItem) (s : ItemSnapshot) =>
      findProduct ps item.productId = some s.product ∧
      item.quantity ≤ s.product.stock ∧
      s.orderItem = { productId := item.productId, quantity := item.quantity,
                      price := s.product.price } ∧
      s.newStock = s.product.stock - item.quantity) items snaps ∧
    total = ((items.zip (snaps.map (fun s => s.product))).map
      (fun x => x.2.price * x.1.quantity)).sum := by
  intro items
  induction items with
  | nil =>
    intro snaps total h
    simp only [validatePhase] at h
    have h1 : ([] : List ItemSnapshot) = snaps ∧ (0 : Int) = total := by
      constructor <;> [exact congrArg Prod.fst (Except.ok.inj h); exact congrArg Prod.snd (Except.ok.inj h)]
    rcases h1 with ⟨h1, h2⟩
    subst h1; subst h2
    exact ⟨List.Forall₂.nil, rfl⟩
  | cons item rest ih =>
    intro snaps total h
    simp only [validatePhase] at h
    cases hfind : findProduct ps item.productId with
    | none => simp only [hfind] at h; exact absurd h (by simp)
    | some product =>
      simp only [hfind] at h
      by_cases hstock : product.stock < item.quantity
      · rw [if_pos hstock] at h; cases h
      · rw [if_neg hstock] at h
        cases hrest : validatePhase ps rest with
        | error e => simp only [hrest] at h; exact absurd h (by simp)
        | ok pr =>
          simp only [hrest] at h
          rcases pr with ⟨snaps0, total0⟩
          have hp := Except.ok.inj h
          have hs : (⟨product, ⟨item.productId, item.quantity, product.price⟩,
                product.stock - item.quantity⟩ : ItemSnapshot) :: snaps0 = snaps :=
            congrArg Prod.fst hp
          have htl : product.price * item.quantity + total0 = total := congrArg Prod.snd hp
          rcases ih snaps0 total0 hrest with ⟨hf, ht⟩
          subst hs; subst htl
          refine ⟨List.Forall₂.cons ⟨hfind, le_of_not_lt hstock, rfl, rfl⟩ hf, ?_⟩
          simp only [List.map_cons, List.zip_cons_cons, List.sum_cons, ht]

theorem find_orders_set_status_same (l : List Order) (oid : Nat) (st : String) :
    (l.map (fun o => if o.id == oid then { o with status := st } else o)).find?
        (fun o => o.id == oid) =
      (l.find? (fun o => o.id == oid)).map (fun o => { o with status := st }) := by
  induction l with
  | nil => rfl
  | cons o rest ih =>
    by_cases h : o.id = oid
    · simp [List.find?_cons, h]
    · simp only [List.map_cons, if_neg (show ¬ (o.id == oid) = true by simpa using h)]
      simp only [List.find?_cons, show (o.id == oid) = false by simpa using h]
      exact ih

theorem orderFindByID_updateStatus_same (db : DB) (oid : Nat) (st : String) :
    orderFindByID (orderUpdateStatus db oid st) oid =
      (orderFindByID db oid).map (fun o => { o with status := st }) :=
  find_orders_set_status_same db.orders oid st

theorem find_payments_update (l : List Payment) {oid : Nat} {pay : Payment} (newPay : Payment)
    (h : l.find? (fun p => p.orderId == oid) = some pay) (hid : newPay.orderId = pay.orderId) :
    (l.map (fun p => if p.orderId == newPay.orderId then newPay else p)).find?
      (fun p => p.orderId == oid) = some newPay := by
  induction l with
  | nil => exact absurd h (by simp)
  | cons q rest ih =>
    by_cases hq : q.orderId = oid
    · rw [List.find?_cons_of_pos _ (by simpa using hq)] at h
      have hpq : q = pay := Option.some.inj h
      subst hpq
      have hnid : newPay.orderId = oid := hid.trans hq
      simp only [List.map_cons, if_pos (show (q.orderId == newPay.orderId) = true by
        simp [hid])]
      rw [List.find?_cons_of_pos _ (by simpa using hnid)]
    · rw [List.find?_cons_of_neg _ (by simpa using hq)] at h
      have hpid : pay.orderId = oid := by
        simpa using List.find?_some h
      have hqn : ¬ q.orderId = newPay.orderId := by
        rw [hid, hpid]; exact hq
      simp only [List.map_cons, if_neg (show ¬ (q.orderId == newPay.orderId) = true by
        simpa using hqn)]
      rw [List.find?_cons_of_neg _ (by simpa using hq)]
      exact ih h

theorem findPayment_updatePayment {db : DB} {oid : Nat} {pay : Payment} (newPay : Payment)
    (h : findPaymentByOrderID db oid = some pay) (hid : newPay.orderId = pay.orderId) :
    findPaymentByOrderID (updatePayment db newPay) oid = some newPay :=
  find_payments_update db.payments newPay h hid

theorem find_carts_filter_self (carts : List Cart) (uid : Nat) :
    (carts.filter (fun c => c.userId != uid)).find? (fun c => c.userId == uid) = none := by
  rw [List.find?_eq_none]
  intro c hc
  have := (List.mem_filter.1 hc).2
  simpa using this

theorem cartGetCart_save (db : DB) (c : Cart) : cartGetCart (cartSaveCart db c) c.userId = c := by
  unfold cartGetCart cartSaveCart
  rw [List.find?_append, find_carts_filter_self]
  simp [List.find?_cons]

theorem cartGetCart_delete (db : DB) (uid : Nat) :
    cartGetCart (cartDeleteCart db uid) uid = { userId := uid, items := [] } := by
  unfold cartGetCart cartDeleteCart
  rw [find_carts_filter_self]

theorem hasLine_iff (items : List CartItem) (pid : Nat) :
    hasLine items pid = true ↔ pid ∈ items.map (fun it => it.productId) := by
  unfold hasLine
  rw [List.any_eq_true]
  constructor
  · rintro ⟨it, hmem, hb⟩
    have : it.productId = pid := by simpa using hb
    exact this ▸ List.mem_map_of_mem _ hmem
  · intro hmem
    rcases List.mem_map.1 hmem with ⟨it, hmem, hb⟩
    exact ⟨it, hmem, by simpa using hb⟩

theorem bumpFirst_map_productId (items : List CartItem) (pid : Nat) (q : Int) :
    (bumpFirst items pid q).map (fun it => it.productId) =
      items.map (fun it => it.productId) := by
  induction items with
  | nil => rfl
  | cons it rest ih =>
    unfold bumpFirst
    by_cases h : it.productId = pid
    · simp [h]
    · rw [if_neg (show ¬ (it.productId == pid) = true by simpa using h)]
      simp only [List.map_cons, ih]

theorem setQtyFirst_map_productId (items : List CartItem) (pid : Nat) (q : Int) :
    (setQtyFirst items pid q).map (fun it => it.productId) =
      items.map (fun it => it.productId) := by
  induction items with
  | nil => rfl
  | cons it rest ih =>
    unfold setQtyFirst
    by_cases h : it.productId = pid
    · simp [h]
    · rw [if_neg (show ¬ (it.productId == pid) = true by simpa using h)]
      simp only [List.map_cons, ih]

theorem restoreStockLoop_cons_nolock (env : CancelEnv) (ps : List Product)
    (locks : List LockKey) (item : OrderItem) (rest : List OrderItem) (i : Nat)
    (hl : ¬ env.lockOk i = true) :
    restoreStockLoop env ps locks (item :: rest) i = restoreStockLoop env ps locks rest (i + 1) := by
  simp only [restoreStockLoop]
  rw [if_neg hl]

theorem restoreStockLoop_cons_notfound (env : CancelEnv) (ps : List Product)
    (locks : List LockKey) (item : OrderItem) (rest : List OrderItem) (i : Nat)
    (hl : env.lockOk i = true) (hfind : findProduct ps item.productId = none) :
    restoreStockLoop env ps locks (item :: rest) i =
      restoreStockLoop env ps
        ((locks ++ [LockKey.stock item.productId]).erase (LockKey.stock item.productId))
        rest (i + 1) := by
  simp only [restoreStockLoop]
  rw [if_pos hl, hfind]

theorem restoreStockLoop_cons_found (env : CancelEnv) (ps : List Product)
    (locks : List LockKey) (item : OrderItem) (rest : List OrderItem) (i : Nat)
    (product : Product) (hl : env.lockOk i = true)
    (hfind : findProduct ps item.productId = some product) :
    restoreStockLoop env ps locks (item :: rest) i =
      restoreStockLoop env
        (if env.updateStockOk i = true then
          setStock ps item.productId (product.stock + item.quantity) else ps)
        ((locks ++ [LockKey.stock item.productId]).erase (LockKey.stock item.productId))
        rest (i + 1) := by
  simp only [restoreStockLoop]
  rw [if_pos hl, hfind]

theorem restoreStockLoop_locks_perm (env : CancelEnv) :
    ∀ (items : List OrderItem) (ps : List Product) (locks : List LockKey) (i : Nat),
    (restoreStockLoop env ps locks items i).2.Perm locks := by
  intro items
  induction items with
  | nil => intro ps locks i; exact List.Perm.refl _
  | cons item rest ih =>
    intro ps locks i
    have hkey : ((locks ++ [LockKey.stock item.productId]).erase
        (LockKey.stock item.productId)).Perm locks := by
      have h1 := (List.perm_append_singleton (LockKey.stock item.productId) locks).erase
        (LockKey.stock item.productId)
      rwa [List.erase_cons_head] at h1
    by_cases hl : env.lockOk i = true
    · cases hfind : findProduct ps item.productId with
      | none =>
        rw [restoreStockLoop_cons_notfound env ps locks item rest i hl hfind]
        exact (ih _ _ _).trans hkey
      | some product =>
        rw [restoreStockLoop_cons_found env ps locks item rest i product hl hfind]
        exact (ih _ _ _).trans hkey
    · rw [restoreStockLoop_cons_nolock env ps locks item rest i hl]
      exact ih _ _ _

theorem restoreStockLoop_not_mem (env : CancelEnv) :
    ∀ (items : List OrderItem) (ps : List Product) (locks : List LockKey) (i pid : Nat),
    pid ∉ items.map (fun it => it.productId) →
    findProduct (restoreStockLoop env ps locks items i).1 pid = findProduct ps pid := by
  intro items
  induction items with
  | nil => intro ps locks i pid _; rfl
  | cons item rest ih =>
    intro ps locks i pid hpid
    simp only [List.map_cons, List.mem_cons, not_or] at hpid
    by_cases hl : env.lockOk i = true
    · cases hfind : findProduct ps item.productId with
      | none =>
        rw [restoreStockLoop_cons_notfound env ps locks item rest i hl hfind]
        exact ih _ _ _ _ hpid.2
      | some product =>
        rw [restoreStockLoop_cons_found env ps locks item rest i product hl hfind]
        by_cases hu : env.updateStockOk i = true
        · rw [if_pos hu, ih _ _ _ _ hpid.2, findProduct_setStock_ne _ _ hpid.1]
        · rw [if_neg hu]
          exact ih _ _ _ _ hpid.2
    · rw [restoreStockLoop_cons_nolock env ps locks item rest i hl]
      exact ih _ _ _ _ hpid.2

theorem forall2_find_setStock {ps : List Product} {id0 : Nat} {q : Int} :
    ∀ {items : List OrderItem} {prods : List Product},
    List.Forall₂ (fun (it : OrderItem) (p : Product) =>
      findProduct ps it.productId = some p) items prods →
    id0 ∉ items.map (fun it => it.productId) →
    List.Forall₂ (fun (it : OrderItem) (p : Product) =>
      findProduct (setStock ps id0 q) it.productId = some p) items prods := by
  intro items prods hf
  induction hf with
  | nil => intro _; exact List.Forall₂.nil
  | cons hhead _ ih =>
    intro hmem
    simp only [List.map_cons, List.mem_cons, not_or] at hmem
    refine List.Forall₂.cons ?_ (ih hmem.2)
    rw [findProduct_setStock_ne _ _ (fun hc => hmem.1 hc.symm)]
    exact hhead

theorem restoreStockLoop_all (env : CancelEnv) (hl : ∀ i, env.lockOk i = true)
    (hu : ∀ i, env.updateStockOk i = true) :
    ∀ (items : List OrderItem) (prods ps : List Product) (locks : List LockKey) (i0 : Nat),
    List.Forall₂ (fun (it : OrderItem) (p : Product) =>
      findProduct ps it.productId = some p) items prods →
    (items.map (fun it => it.productId)).Nodup →
    ∀ pr ∈ items.zip prods,
      findProduct (restoreStockLoop env ps locks items i0).1 pr.1.productId =
        some { pr.2 with stock := pr.2.stock + pr.1.quantity } := by
  intro items
  induction items with
  | nil => intro prods ps locks i0 _ _ pr hpr; cases hpr
  | cons item rest ih =>
    intro prods ps locks i0 hf hnodup pr hpr
    cases hf with
    | cons hhead htail =>
      rename_i p prest
      simp only [List.map_cons, List.nodup_cons] at hnodup
      rw [restoreStockLoop_cons_found env ps locks item rest i0 p (hl i0) hhead, if_pos (hu i0)]
      rcases List.mem_cons.1 (by simpa using hpr) with hpr0 | hpr0
      · subst hpr0
        rw [restoreStockLoop_not_mem env rest _ _ _ _ hnodup.1,
            findProduct_setStock_same, hhead]
        rfl
      · exact ih prest _ _ _ (forall2_find_setStock htail hnodup.1) hnodup.2 pr hpr0

theorem ppr_success_eq_some (env : PaymentEnv) (db : DB) (oid : Nat) (order : Order)
    (pay : Payment) (ho : orderFindByID db oid = some order)
    (hp : findPaymentByOrderID db oid = some pay)
    (hu : env.updatePaymentOk = true) (hs : env.updateStatusOk = true) :
    ProcessPaymentResult env db oid true =
      (.ok (), orderUpdateStatus (updatePayment db { pay with status := PaymentStatusSuccess })
        oid OrderStatusPaid) := by
  unfold ProcessPaymentResult
  rw [ho, hp, hu, hs]
  rfl

theorem ppr_success_eq_none (env : PaymentEnv) (db : DB) (oid : Nat) (order : Order)
    (ho : orderFindByID db oid = some order) (hp : findPaymentByOrderID db oid = none)
    (hs : env.updateStatusOk = true) :
    ProcessPaymentResult env db oid true = (.ok (), orderUpdateStatus db oid OrderStatusPaid) := by
  unfold ProcessPaymentResult
  rw [ho, hp, hs]
  rfl

theorem ppr_failed_eq_some (env : PaymentEnv) (db : DB) (oid : Nat) (order : Order)
    (pay : Payment) (ho : orderFindByID db oid = some order)
    (hp : findPaymentByOrderID db oid = some pay) (hu : env.updatePaymentOk = true) :
    ProcessPaymentResult env db oid false =
      (.ok (), updatePayment db { pay with status := PaymentStatusFailed }) := by
  unfold ProcessPaymentResult
  rw [ho, hp, hu]
  rfl

theorem ppr_failed_eq_none (env : PaymentEnv) (db : DB) (oid : Nat) (order : Order)
    (ho : orderFindByID db oid = some order) (hp : findPaymentByOrderID db oid = none) :
    ProcessPaymentResult env db oid false = (.ok (), db) := by
  unfold ProcessPaymentResult
  rw [ho, hp]

theorem ppr_failed_frame (env : PaymentEnv) (db : DB) (oid : Nat) :
    (ProcessPaymentResult env db oid false).2.orders = db.orders ∧
    (ProcessPaymentResult env db oid false).2.products = db.products := by
  unfold ProcessPaymentResult
  cases ho : orderFindByID db oid with
  | none => exact ⟨rfl, rfl⟩
  | some o =>
    cases hp : findPaymentByOrderID db oid with
    | none => exact ⟨rfl, rfl⟩
    | some pay =>
      cases hu : env.updatePaymentOk
      · exact ⟨rfl, rfl⟩
      · exact ⟨rfl, rfl⟩

theorem cancelOrder_eq (cenv : CancelEnv) (db : DB) (uid oid : Nat) (order : Order)
    (ho : orderFindByID db oid = some order) :
    CancelOrder cenv db uid oid =
      (if order.userId == uid then
        if CancellableStatuses order.status then
          let pl := restoreStockLoop cenv db.products db.locks order.orderItems 0
          let db1 : DB := { db with products := pl.1, locks := pl.2 }
          if cenv.updateStatusOk then ((.ok () : Except CancelErr Unit),
            orderUpdateStatus db1 oid OrderStatusCancelled)
          else (.error .cancelFailed, db1)
        else (.error (.invalidStatus order.status), db)
      else (.error .forbidden, db)) := by
  unfold CancelOrder
  rw [ho]

theorem cancelOrder_notfound (cenv : CancelEnv) (db : DB) (uid oid : Nat)
    (ho : orderFindByID db oid = none) :
    CancelOrder cenv db uid oid = (.error .orderNotFound, db) := by
  unfold CancelOrder
  rw [ho]

theorem updateOrderStatus_notfound (aenv : AdvanceEnv) (db : DB) (sid oid : Nat) (st : String)
    (ho : orderFindByID db oid = none) :
    UpdateOrderStatus aenv db sid oid st = (.error .orderNotFound, db) := by
  unfold UpdateOrderStatus
  rw [ho]

theorem updateOrderStatus_nomap (aenv : AdvanceEnv) (db : DB) (sid oid : Nat) (st : String)
    (order : Order) (ho : orderFindByID db oid = some order)
    (hvt : validTransitions order.status = none) :
    UpdateOrderStatus aenv db sid oid st = (.error (.noValidTransition order.status), db) := by
  unfold UpdateOrderStatus
  simp only [ho, hvt]

theorem updateOrderStatus_badtarget (aenv : AdvanceEnv) (db : DB) (sid oid : Nat) (st : String)
    (order : Order) (allowed : List String) (ho : orderFindByID db oid = some order)
    (hvt : validTransitions order.status = some allowed)
    (hst : allowed.contains st = false) :
    UpdateOrderStatus aenv db sid oid st = (.error (.invalidTransition order.status st), db) := by
  unfold UpdateOrderStatus
  simp only [ho, hvt, hst]
  rfl

theorem updateOrderStatus_nostore (aenv : AdvanceEnv) (db : DB) (sid oid : Nat) (st : String)
    (order : Order) (allowed : List String) (ho : orderFindByID db oid = some order)
    (hvt : validTransitions order.status = some allowed)
    (hst : allowed.contains st = true) (hstore : storeFindByUserID db sid = none) :
    UpdateOrderStatus aenv db sid oid st = (.error .storeNotFound, db) := by
  unfold UpdateOrderStatus
  simp only [ho, hvt, hst, hstore]
  rfl

theorem updateOrderStatus_forbidden (aenv : AdvanceEnv) (db : DB) (sid oid : Nat) (st : String)
    (order : Order) (allowed : List String) (store : Store)
    (ho : orderFindByID db oid = some order)
    (hvt : validTransitions order.status = some allowed)
    (hst : allowed.contains st = true) (hstore : storeFindByUserID db sid = some store)
    (hhas : hasItemFromStore db store.id order.orderItems = false) :
    UpdateOrderStatus aenv db sid oid st = (.error .forbidden, db) := by
  unfold UpdateOrderStatus
  simp only [ho, hvt, hst, hstore, hhas]
  rfl

theorem updateOrderStatus_ok_eq (aenv : AdvanceEnv) (db : DB) (sid oid : Nat) (st : String)
    (order : Order) (allowed : List String) (store : Store)
    (ho : orderFindByID db oid = some order)
    (hvt : validTransitions order.status = some allowed)
    (hst : allowed.contains st = true) (hstore : storeFindByUserID db sid = some store)
    (hhas : hasItemFromStore db store.id order.orderItems = true)
    (henv : aenv.updateStatusOk = true) :
    UpdateOrderStatus aenv db sid oid st = (.ok (), orderUpdateStatus db oid st) := by
  unfold UpdateOrderStatus
  simp only [ho, hvt, hst, hstore, hhas, henv]
  rfl

/-- A successful payment event on any existing order sets the order status to
paid (whatever the current status), reports no error, and leaves products
untouched. -/
theorem ppr_success_sets_paid (penv : PaymentEnv) (db : DB) (oid : Nat) (order : Order)
    (hu : penv.updatePaymentOk = true) (hs : penv.updateStatusOk = true)
    (horder : orderFindByID db oid = some order) :
    orderFindByID (ProcessPaymentResult penv db oid true).2 oid =
      some { order with status := OrderStatusPaid } ∧
    (ProcessPaymentResult penv db oid true).1 = .ok () ∧
    (ProcessPaymentResult penv db oid true).2.products = db.products := by
  cases hp : findPaymentByOrderID db oid with
  | some pay =>
    have h1 := ppr_success_eq_some penv db oid order pay horder hp hu hs
    rw [h1]
    refine ⟨?_, rfl, rfl⟩
    rw [orderFindByID_updateStatus_same]
    show (orderFindByID db oid).map (fun o => { o with status := OrderStatusPaid }) =
      some { order with status := OrderStatusPaid }
    rw [horder]
    rfl
  | none =>
    have h1 := ppr_success_eq_none penv db oid order horder hp hs
    rw [h1]
    refine ⟨?_, rfl, rfl⟩
    rw [orderFindByID_updateStatus_same, horder]
    rfl

/-- Product ids recorded by a successful validation match the cart lines. -/
theorem validate_snaps_ids {ps : List Product} {items : List CartItem}
    {snaps : List ItemSnapshot}
    (hf : List.Forall₂ (fun (item : CartItem) (s : ItemSnapshot) =>
      findProduct ps item.productId = some s.product ∧
      item.quantity ≤ s.product.stock ∧
      s.orderItem = { productId := item.productId, quantity := item.quantity,
                      price := s.product.price } ∧
      s.newStock = s.product.stock - item.quantity) items snaps) :
    snaps.map (fun s => s.product.id) = items.map (fun it => it.productId) := by
  induction hf with
  | nil => rfl
  | cons h _ ih =>
    rename_i item s items0 snaps0
    simp only [List.map_cons, ih]
    rw [findProduct_id h.1]

theorem validTransitions_none_of {s : String} (h1 : s ≠ OrderStatusPaid)
    (h2 : s ≠ OrderStatusProcessing) (h3 : s ≠ OrderStatusShipping)
    (h4 : s ≠ OrderStatusShipped) : validTransitions s = none := by
  unfold validTransitions
  rw [if_neg (by simpa using h1), if_neg (by simpa using h2), if_neg (by simpa using h3),
      if_neg (by simpa using h4)]

theorem validTransitions_some_inv {s : String} {allowed : List String}
    (h : validTransitions s = some allowed) :
    (s = OrderStatusPaid ∧ allowed = [OrderStatusProcessing]) ∨
    (s = OrderStatusProcessing ∧ allowed = [OrderStatusShipping]) ∨
    (s = OrderStatusShipping ∧ allowed = [OrderStatusShipped]) ∨
    (s = OrderStatusShipped ∧ allowed = [OrderStatusCompleted]) := by
  unfold validTransitions at h
  by_cases h1 : (s == OrderStatusPaid) = true
  · rw [if_pos h1] at h
    exact Or.inl ⟨by simpa using h1, (Option.some.inj h).symm⟩
  · rw [if_neg h1] at h
    by_cases h2 : (s == OrderStatusProcessing) = true
    · rw [if_pos h2] at h
      exact Or.inr (Or.inl ⟨by simpa using h2, (Option.some.inj h).symm⟩)
    · rw [if_neg h2] at h
      by_cases h3 : (s == OrderStatusShipping) = true
      · rw [if_pos h3] at h
        exact Or.inr (Or.inr (Or.inl ⟨by simpa using h3, (Option.some.inj h).symm⟩))
      · rw [if_neg h3] at h
        by_cases h4 : (s == OrderStatusShipped) = true
        · rw [if_pos h4] at h
          exact Or.inr (Or.inr (Or.inr ⟨by simpa using h4, (Option.some.inj h).symm⟩))
        · rw [if_neg h4] at h
          cases h

theorem cartGetCart_userId (db : DB) (uid : Nat) : (cartGetCart db uid).userId = uid := by
  unfold cartGetCart
  cases hf : db.carts.find? (fun c => c.userId == uid) with
  | none => rfl
  | some c => exact (by simpa using List.find?_some hf)

theorem addItem_ok_eq (env : CartEnv) (db : DB) (uid pid : Nat) (q : Int) (product : Product)
    (hq : ¬ q ≤ 0) (hp : productFindByID db pid = some product) (hs : ¬ product.stock < q)
    (hl : env.cartLockOk = true) (hsv : env.saveOk = true) :
    AddItem env db uid pid q =
      (.ok { cartGetCart db uid with items := (if (hasLine (cartGetCart db uid).items pid) then bumpFirst (cartGetCart db uid).items pid q else (cartGetCart db uid).items ++ [(⟨pid, product.name, product.price, q⟩ : CartItem)]) },
       cartSaveCart db { cartGetCart db uid with items := (if (hasLine (cartGetCart db uid).items pid) then bumpFirst (cartGetCart db uid).items pid q else (cartGetCart db uid).items ++ [(⟨pid, product.name, product.price, q⟩ : CartItem)]) }) := by
  unfold AddItem
  rw [if_neg hq]
  simp only [hp]
  rw [if_neg hs, hl, hsv]
  rfl

theorem updateItem_ok_eq (env : CartEnv) (db : DB) (uid pid : Nat) (q : Int)
    (hq : ¬ q ≤ 0) (hl : env.cartLockOk = true) (hsv : env.saveOk = true)
    (hline : hasLine (cartGetCart db uid).items pid = true) :
    UpdateItem env db uid pid q =
      (.ok { cartGetCart db uid with items := setQtyFirst (cartGetCart db uid).items pid q },
       cartSaveCart db
         { cartGetCart db uid with items := setQtyFirst (cartGetCart db uid).items pid q }) := by
  unfold UpdateItem
  rw [if_neg hq, hl]
  simp only [hline, hsv]
  rfl

theorem removeItem_ok_eq (env : CartEnv) (db : DB) (uid pid : Nat)
    (hl : env.cartLockOk = true) (hsv : env.saveOk = true)
    (hline : hasLine (cartGetCart db uid).items pid = true) :
    RemoveItem env db uid pid =
      (.ok { cartGetCart db uid with items := (cartGetCart db uid).items.eraseP (fun it => it.productId == pid) },
       cartSaveCart db { cartGetCart db uid with items := (cartGetCart db uid).items.eraseP (fun it => it.productId == pid) }) := by
  unfold RemoveItem
  rw [hl]
  simp only [hline, hsv]
  rfl

theorem checkout_empty_eq (env : CheckoutEnv) (db : DB) (uid : Nat) (addr : String)
    (hemp : (cartGetCart db uid).items.isEmpty = true) :
    Checkout env db uid addr = (.error .cartEmpty, db) := by
  unfold Checkout
  simp only [hemp]
  rfl

theorem checkout_lockfail_eq (env : CheckoutEnv) (db : DB) (uid : Nat) (addr : String)
    (locks1 : List LockKey) (hemp : (cartGetCart db uid).items.isEmpty = false)
    (hlp : lockPhase env db.locks (cartGetCart db uid).items 0 [] = .error locks1) :
    Checkout env db uid addr = (.error .checkoutUnavailable, { db with locks := locks1 }) := by
  unfold Checkout
  simp only [hemp, hlp]
  rfl

theorem checkout_validatefail_eq (env : CheckoutEnv) (db : DB) (uid : Nat) (addr : String)
    (locks1 mutexes : List LockKey) (e : CheckoutErr)
    (hemp : (cartGetCart db uid).items.isEmpty = false)
    (hlp : lockPhase env db.locks (cartGetCart db uid).items 0 [] = .ok (locks1, mutexes))
    (hval : validatePhase db.products (cartGetCart db uid).items = .error e) :
    Checkout env db uid addr = (.error e, { db with locks := releaseAll locks1 mutexes }) := by
  unfold Checkout
  simp only [hemp, hlp, hval]
  rfl

theorem checkout_applyfail_eq (env : CheckoutEnv) (db : DB) (uid : Nat) (addr : String)
    (locks1 mutexes : List LockKey) (snaps : List ItemSnapshot) (total : Int)
    (products1 : List Product) (i : Nat)
    (hemp : (cartGetCart db uid).items.isEmpty = false)
    (hlp : lockPhase env db.locks (cartGetCart db uid).items 0 [] = .ok (locks1, mutexes))
    (hval : validatePhase db.products (cartGetCart db uid).items = .ok (snaps, total))
    (happ : applyPhase env db.products snaps 0 = .error (products1, i)) :
    Checkout env db uid addr =
      (.error .checkoutFailed,
       { db with products := rollbackSnaps env products1 (snaps.take i) 0,
                 locks := releaseAll locks1 mutexes }) := by
  unfold Checkout
  simp only [hemp, hlp, hval, happ]
  rfl

theorem checkout_commitfail_eq (env : CheckoutEnv) (db : DB) (uid : Nat) (addr : String)
    (locks1 mutexes : List LockKey) (snaps : List ItemSnapshot) (total : Int)
    (products1 : List Product)
    (hemp : (cartGetCart db uid).items.isEmpty = false)
    (hlp : lockPhase env db.locks (cartGetCart db uid).items 0 [] = .ok (locks1, mutexes))
    (hval : validatePhase db.products (cartGetCart db uid).items = .ok (snaps, total))
    (happ : applyPhase env db.products snaps 0 = .ok products1)
    (hcr : env.createOk = false) :
    Checkout env db uid addr =
      (.error .createOrderFailed,
       { db with products := rollbackSnaps env products1 snaps 0,
                 locks := releaseAll locks1 mutexes }) := by
  unfold Checkout
  simp only [hemp, hlp, hval, happ, hcr]
  rfl

theorem checkout_success_eq (env : CheckoutEnv) (db : DB) (uid : Nat) (addr : String)
    (locks1 mutexes : List LockKey) (snaps : List ItemSnapshot) (total : Int)
    (products1 : List Product)
    (hemp : (cartGetCart db uid).items.isEmpty = false)
    (hlp : lockPhase env db.locks (cartGetCart db uid).items 0 [] = .ok (locks1, mutexes))
    (hval : validatePhase db.products (cartGetCart db uid).items = .ok (snaps, total))
    (happ : applyPhase env db.products snaps 0 = .ok products1)
    (hcr : env.createOk = true) (hdel : env.deleteCartOk = true) :
    Checkout env db uid addr =
      (.ok { id := db.nextOrderId, userId := uid, status := OrderStatusPending,
             totalAmount := total, shippingAddress := addr,
             orderItems := snaps.map (fun s => s.orderItem) },
       { cartDeleteCart
           { db with products := products1,
                     orders := db.orders ++
                       [{ id := db.nextOrderId, userId := uid, status := OrderStatusPending,
                          totalAmount := total, shippingAddress := addr,
                          orderItems := snaps.map (fun s => s.orderItem) }],
                     nextOrderId := db.nextOrderId + 1 } uid
         with locks := releaseAll locks1 mutexes }) := by
  unfold Checkout
  simp only [hemp, hlp, hval, happ, hcr, hdel]
  rfl

theorem checkout_success_nodel_eq (env : CheckoutEnv) (db : DB) (uid : Nat) (addr : String)
    (locks1 mutexes : List LockKey) (snaps : List ItemSnapshot) (total : Int)
    (products1 : List Product)
    (hemp : (cartGetCart db uid).items.isEmpty = false)
    (hlp : lockPhase env db.locks (cartGetCart db uid).items 0 [] = .ok (locks1, mutexes))
    (hval : validatePhase db.products (cartGetCart db uid).items = .ok (snaps, total))
    (happ : applyPhase env db.products snaps 0 = .ok products1)
    (hcr : env.createOk = true) (hdel : env.deleteCartOk = false) :
    Checkout env db uid addr =
      (.ok { id := db.nextOrderId, userId := uid, status := OrderStatusPending,
             totalAmount := total, shippingAddress := addr,
             orderItems := snaps.map (fun s => s.orderItem) },
       { db with products := products1,
                 orders := db.orders ++
                   [{ id := db.nextOrderId, userId := uid, status := OrderStatusPending,
                      totalAmount := total, shippingAddress := addr,
                      orderItems := snaps.map (fun s => s.orderItem) }],
                 nextOrderId := db.nextOrderId + 1,
                 locks := releaseAll locks1 mutexes }) := by
  unfold Checkout
  simp only [hemp, hlp, hval, happ, hcr, hdel]
  rfl

/-- Every snapshot of a successful validation records the product row as read
from the catalog. -/
theorem validate_snaps_find {ps : List Product} {items : List CartItem}
    {snaps : List ItemSnapshot}
    (hf : List.Forall₂ (fun (item : CartItem) (s : ItemSnapshot) =>
      findProduct ps item.productId = some s.product ∧
      item.quantity ≤ s.product.stock ∧
      s.orderItem = { productId := item.productId, quantity := item.quantity,
                      price := s.product.price } ∧
      s.newStock = s.product.stock - item.quantity) items snaps) :
    ∀ s ∈ snaps, findProduct ps s.product.id = some s.product := by
  induction hf with
  | nil => intro s hs; cases hs
  | cons hhead _ ih =>
    intro s hs
    rcases List.mem_cons.1 hs with h | h
    · subst h
      rw [findProduct_id hhead.1]
      exact hhead.1
    · exact ih s h

/-- A checkout whose lines all found sufficiently stocked products validates
to the snapshots and total computed from the current catalog prices. -/
theorem validatePhase_ok_of_valid (ps : List Product) :
    ∀ {items : List CartItem} {prods : List Product},
    List.Forall₂ (fun (item : CartItem) (p : Product) =>
      findProduct ps item.productId = some p ∧ item.quantity ≤ p.stock) items prods →
    validatePhase ps items =
      .ok ((items.zip prods).map (fun x => snapOf x.1 x.2),
           ((items.zip prods).map (fun x => x.2.price * x.1.quantity)).sum) := by
  intro items prods hf
  induction hf with
  | nil => rfl
  | cons hhead htail ih =>
    rename_i item p items0 prods0
    unfold validatePhase
    simp only [hhead.1]
    rw [if_neg (not_lt.2 hhead.2), ih, List.zip_cons_cons, List.map_cons, List.map_cons,
        List.sum_cons]
    rfl

theorem cartDeleteCart_items_nil (db : DB) (uid : Nat) :
    (cartGetCart (cartDeleteCart db uid) uid).items = [] := by
  rw [cartGetCart_delete]

/-! Claim theorems. -/

/-- C6: UpdateOrderStatus (seller Advance) succeeds only on exactly the edges
paid→processing, processing→shipping, shipping→shipped, shipped→completed: an
order whose current status is not in {paid, processing, shipping, shipped}
fails with an unmapped-source error, a mapped source status with any other
requested target fails with an invalid-transition error, it fails (leaving the
state unchanged) when the calling seller's store supplies no product referenced
by the order's lines, and any successful call was on one of the four edges with
the seller's store supplying some line product. -/
theorem claimC6_advanceEdges (aenv : AdvanceEnv) (db : DB) (sid oid : Nat) (st : String)
    (order : Order) (horder : orderFindByID db oid = some order) :
    (order.status ≠ OrderStatusPaid → order.status ≠ OrderStatusProcessing →
     order.status ≠ OrderStatusShipping → order.status ≠ OrderStatusShipped →
      UpdateOrderStatus aenv db sid oid st = (.error (.noValidTransition order.status), db)) ∧
    (∀ allowed, validTransitions order.status = some allowed → allowed.contains st = false →
      UpdateOrderStatus aenv db sid oid st = (.error (.invalidTransition order.status st), db)) ∧
    (∀ store, storeFindByUserID db sid = some store →
      hasItemFromStore db store.id order.orderItems = false →
      (∃ e, (UpdateOrderStatus aenv db sid oid st).1 = .error e) ∧
        (UpdateOrderStatus aenv db sid oid st).2 = db) ∧
    ((UpdateOrderStatus aenv db sid oid st).1 = .ok () →
      ((order.status = OrderStatusPaid ∧ st = OrderStatusProcessing) ∨
       (order.status = OrderStatusProcessing ∧ st = OrderStatusShipping) ∨
       (order.status = OrderStatusShipping ∧ st = OrderStatusShipped) ∨
       (order.status = OrderStatusShipped ∧ st = OrderStatusCompleted)) ∧
      ∃ store, storeFindByUserID db sid = some store ∧
        hasItemFromStore db store.id order.orderItems = true) := by
  refine ⟨?_, ?_, ?_, ?_⟩
  · intro h1 h2 h3 h4
    exact updateOrderStatus_nomap aenv db sid oid st order horder
      (validTransitions_none_of h1 h2 h3 h4)
  · intro allowed hvt hst
    exact updateOrderStatus_badtarget aenv db sid oid st order allowed horder hvt hst
  · intro store hstore hhas
    cases hvt : validTransitions order.status with
    | none =>
      rw [updateOrderStatus_nomap aenv db sid oid st order horder hvt]
      exact ⟨⟨_, rfl⟩, rfl⟩
    | some allowed =>
      by_cases hst : allowed.contains st = true
      · rw [updateOrderStatus_forbidden aenv db sid oid st order allowed store horder hvt hst
          hstore hhas]
        exact ⟨⟨_, rfl⟩, rfl⟩
      · rw [updateOrderStatus_badtarget aenv db sid oid st order allowed horder hvt
          (by simpa using hst)]
        exact ⟨⟨_, rfl⟩, rfl⟩
  · intro hok
    cases hvt : validTransitions order.status with
    | none =>
      rw [updateOrderStatus_nomap aenv db sid oid st order horder hvt] at hok
      exact absurd hok (by simp)
    | some allowed =>
      by_cases hst : allowed.contains st = true
      · cases hstore : storeFindByUserID db sid with
        | none =>
          rw [updateOrderStatus_nostore aenv db sid oid st order allowed horder hvt hst hstore]
            at hok
          exact absurd hok (by simp)
        | some store =>
          by_cases hhas : hasItemFromStore db store.id order.orderItems = true
          · refine ⟨?_, ⟨store, rfl, hhas⟩⟩
            have hmem : st ∈ allowed := by
              rcases validTransitions_some_inv hvt with ⟨_, ha⟩ | ⟨_, ha⟩ | ⟨_, ha⟩ | ⟨_, ha⟩ <;>
                · subst ha
                  simpa using hst
            rcases validTransitions_some_inv hvt with ⟨hsrc, ha⟩ | ⟨hsrc, ha⟩ | ⟨hsrc, ha⟩ |
              ⟨hsrc, ha⟩
            · subst ha
              exact Or.inl ⟨hsrc, (List.mem_singleton.1 hmem)⟩
            · subst ha
              exact Or.inr (Or.inl ⟨hsrc, List.mem_singleton.1 hmem⟩)
            · subst ha
              exact Or.inr (Or.inr (Or.inl ⟨hsrc, List.mem_singleton.1 hmem⟩))
            · subst ha
              exact Or.inr (Or.inr (Or.inr ⟨hsrc, List.mem_singleton.1 hmem⟩))
          · rw [updateOrderStatus_forbidden aenv db sid oid st order allowed store horder hvt
              hst hstore (by simpa using hhas)] at hok
            exact absurd hok (by simp)
      · rw [updateOrderStatus_badtarget aenv db sid oid st order allowed horder hvt
          (by simpa using hst)] at hok
        exact absurd hok (by simp)

theorem restoreStockLoop_allfail (env : CancelEnv) (hfail : ∀ j, env.lockOk j = false) :
    ∀ (items : List OrderItem) (ps : List Product) (locks : List LockKey) (i : Nat),
    restoreStockLoop env ps locks items i = (ps, locks) := by
  intro items
  induction items with
  | nil => intro ps locks i; rfl
  | cons item rest ih =>
    intro ps locks i
    rw [restoreStockLoop_cons_nolock env ps locks item rest i (by rw [hfail i]; simp)]
    exact ih _ _ _

/-- C7: CancelOrder succeeds only when the caller owns the order and the
status is cancellable ({pending, paid, processing}), failing otherwise with
no state change; on success each line's product stock is incremented by the
line quantity under that product's stock lock (a per-line lock failure skips
that line but does not fail the cancellation, and all locks taken are
released), the status becomes cancelled, and a second cancel fails with
InvalidStatus. -/
theorem claimC7_cancelOrder (cenv : CancelEnv) (db : DB) (uid oid : Nat) (order : Order) :
    (orderFindByID db oid = none → CancelOrder cenv db uid oid = (.error .orderNotFound, db)) ∧
    (orderFindByID db oid = some order → order.userId ≠ uid →
      CancelOrder cenv db uid oid = (.error .forbidden, db)) ∧
    (orderFindByID db oid = some order → CancellableStatuses order.status = false →
      order.userId = uid →
      CancelOrder cenv db uid oid = (.error (.invalidStatus order.status), db)) ∧
    (orderFindByID db oid = some order → order.userId = uid →
     CancellableStatuses order.status = true → cenv.updateStatusOk = true →
      (CancelOrder cenv db uid oid).1 = .ok () ∧
      orderFindByID (CancelOrder cenv db uid oid).2 oid =
        some { order with status := OrderStatusCancelled } ∧
      (CancelOrder cenv db uid oid).2.locks.Perm db.locks ∧
      (∀ cenv2, CancelOrder cenv2 (CancelOrder cenv db uid oid).2 uid oid =
        (.error (.invalidStatus OrderStatusCancelled), (CancelOrder cenv db uid oid).2))) ∧
    (∀ prods, orderFindByID db oid = some order → order.userId = uid →
     CancellableStatuses order.status = true → cenv.updateStatusOk = true →
     (∀ i, cenv.lockOk i = true) → (∀ i, cenv.updateStockOk i = true) →
     List.Forall₂ (fun (it : OrderItem) (p : Product) =>
       findProduct db.products it.productId = some p) order.orderItems prods →
     (order.orderItems.map (fun it => it.productId)).Nodup →
      ∀ pr ∈ order.orderItems.zip prods,
        findProduct (CancelOrder cenv db uid oid).2.products pr.1.productId =
          some { pr.2 with stock := pr.2.stock + pr.1.quantity }) ∧
    (orderFindByID db oid = some order → order.userId = uid →
     CancellableStatuses order.status = true → cenv.updateStatusOk = true →
     (∀ i, cenv.lockOk i = false) →
      (CancelOrder cenv db uid oid).1 = .ok () ∧
      (CancelOrder cenv db uid oid).2.products = db.products) := by
  refine ⟨?_, ?_, ?_, ?_, ?_, ?_⟩
  · intro ho
    exact cancelOrder_notfound cenv db uid oid ho
  · intro ho hne
    rw [cancelOrder_eq cenv db uid oid order ho,
        if_neg (show ¬ (order.userId == uid) = true by simpa using hne)]
  · intro ho hcan huid
    rw [cancelOrder_eq cenv db uid oid order ho,
        if_pos (show (order.userId == uid) = true by simpa using huid),
        if_neg (by rw [hcan]; exact Bool.false_ne_true)]
  · intro ho huid hcan hup
    have heq : CancelOrder cenv db uid oid =
        (.ok (), orderUpdateStatus
          { db with products := (restoreStockLoop cenv db.products db.locks order.orderItems 0).1,
                    locks := (restoreStockLoop cenv db.products db.locks order.orderItems 0).2 }
          oid OrderStatusCancelled) := by
      rw [cancelOrder_eq cenv db uid oid order ho,
          if_pos (show (order.userId == uid) = true by simpa using huid),
          if_pos hcan, if_pos hup]
    have hfind : orderFindByID (CancelOrder cenv db uid oid).2 oid =
        some { order with status := OrderStatusCancelled } := by
      rw [heq]
      show orderFindByID (orderUpdateStatus _ oid OrderStatusCancelled) oid = _
      rw [orderFindByID_updateStatus_same]
      show (orderFindByID db oid).map (fun o => { o with status := OrderStatusCancelled }) = _
      rw [ho]
      rfl
    refine ⟨by rw [heq], hfind, ?_, ?_⟩
    · rw [heq]
      show (restoreStockLoop cenv db.products db.locks order.orderItems 0).2.Perm db.locks
      exact restoreStockLoop_locks_perm cenv order.orderItems db.products db.locks 0
    · intro cenv2
      rw [cancelOrder_eq cenv2 (CancelOrder cenv db uid oid).2 uid oid
            { order with status := OrderStatusCancelled } hfind,
          if_pos (show (order.userId == uid) = true by simpa using huid),
          if_neg (fun hc => absurd
            (show CancellableStatuses OrderStatusCancelled = true from hc) (by decide))]
  · intro prods ho huid hcan hup hlock hstock hf hnodup pr hpr
    have heq : CancelOrder cenv db uid oid =
        (.ok (), orderUpdateStatus
          { db with products := (restoreStockLoop cenv db.products db.locks order.orderItems 0).1,
                    locks := (restoreStockLoop cenv db.products db.locks order.orderItems 0).2 }
          oid OrderStatusCancelled) := by
      rw [cancelOrder_eq cenv db uid oid order ho,
          if_pos (show (order.userId == uid) = true by simpa using huid),
          if_pos hcan, if_pos hup]
    rw [heq]
    show findProduct (restoreStockLoop cenv db.products db.locks order.orderItems 0).1
      pr.1.productId = _
    exact restoreStockLoop_all cenv hlock hstock order.orderItems prods db.products db.locks 0
      hf hnodup pr hpr
  · intro ho huid hcan hup hfail
    have heq : CancelOrder cenv db uid oid =
        (.ok (), orderUpdateStatus
          { db with products := (restoreStockLoop cenv db.products db.locks order.orderItems 0).1,
                    locks := (restoreStockLoop cenv db.products db.locks order.orderItems 0).2 }
          oid OrderStatusCancelled) := by
      rw [cancelOrder_eq cenv db uid oid order ho,
          if_pos (show (order.userId == uid) = true by simpa using huid),
          if_pos hcan, if_pos hup]
    rw [heq, restoreStockLoop_allfail cenv hfail]
    exact ⟨rfl, rfl⟩

/-- Witness for C7: the spec scenario — a pending one-line order (quantity 2 of
product 3 with stock 3) cancelled by its owner: the cancel reports success and
the stock is restored to 5. -/
theorem claimC7_cancelOrder_witness :
    (CancelOrder allOkCancelEnv dbC7 2 1).1 = .ok () ∧
    findProduct (CancelOrder allOkCancelEnv dbC7 2 1).2.products 3 =
      some { sampleProduct 3 5 3 with stock := (3 : Int) + 2 } :=
  ⟨((claimC7_cancelOrder allOkCancelEnv dbC7 2 1
      (sampleOrder OrderStatusPending [{ productId := 3, quantity := 2, price := 5 }])).2.2.2.1
      rfl rfl rfl rfl).1,
   (claimC7_cancelOrder allOkCancelEnv dbC7 2 1
      (sampleOrder OrderStatusPending [{ productId := 3, quantity := 2, price := 5 }])).2.2.2.2.1
      [sampleProduct 3 5 3] rfl rfl rfl rfl (fun _ => rfl) (fun _ => rfl)
      (List.Forall₂.cons rfl List.Forall₂.nil) (by decide)
      ({ productId := 3, quantity := 2, price := 5 }, sampleProduct 3 5 3)
      (List.mem_singleton.2 rfl)⟩

/-- C9: every cart operation preserves the invariant that a cart holds at most
one line per product id: AddItem merges into the existing line (summing the
quantities, adding no new line) when the product is already present and appends
a fresh line otherwise, UpdateItem only rewrites a line's quantity, RemoveItem
removes a line, a saved cart is read back unchanged by the save/load round
trip, and under the invariant the checkout lock loop's key list contains each
product's stock lock at most once. -/
theorem claimC9_cartInvariant (env : CartEnv) (db : DB) (uid pid : Nat) (q : Int)
    (hl : env.cartLockOk = true) (hsv : env.saveOk = true) :
    (∀ product, ¬ q ≤ 0 → productFindByID db pid = some product → ¬ product.stock < q →
      ∃ cart1, AddItem env db uid pid q = (.ok cart1, cartSaveCart db cart1) ∧
        (CartInv (cartGetCart db uid) → CartInv cart1) ∧
        cartGetCart (AddItem env db uid pid q).2 uid = cart1 ∧
        (hasLine (cartGetCart db uid).items pid = true →
          cart1.items = bumpFirst (cartGetCart db uid).items pid q) ∧
        (hasLine (cartGetCart db uid).items pid = false →
          cart1.items = (cartGetCart db uid).items ++
            [(⟨pid, product.name, product.price, q⟩ : CartItem)])) ∧
    (¬ q ≤ 0 → hasLine (cartGetCart db uid).items pid = true →
      ∃ cart1, UpdateItem env db uid pid q = (.ok cart1, cartSaveCart db cart1) ∧
        (CartInv (cartGetCart db uid) → CartInv cart1) ∧
        cartGetCart (UpdateItem env db uid pid q).2 uid = cart1) ∧
    (hasLine (cartGetCart db uid).items pid = true →
      ∃ cart1, RemoveItem env db uid pid = (.ok cart1, cartSaveCart db cart1) ∧
        (CartInv (cartGetCart db uid) → CartInv cart1) ∧
        cartGetCart (RemoveItem env db uid pid).2 uid = cart1) ∧
    (∀ c : Cart, cartGetCart (cartSaveCart db c) c.userId = c) ∧
    (∀ c : Cart, CartInv c → (lockKeys c.items).Nodup) := by
  have huid : (cartGetCart db uid).userId = uid := cartGetCart_userId db uid
  refine ⟨?_, ?_, ?_, fun c => cartGetCart_save db c, ?_⟩
  · intro product hq hp hs
    have heq := addItem_ok_eq env db uid pid q product hq hp hs hl hsv
    cases hline : hasLine (cartGetCart db uid).items pid with
    | true =>
      have heqT : AddItem env db uid pid q =
          (.ok { cartGetCart db uid with items := bumpFirst (cartGetCart db uid).items pid q },
           cartSaveCart db { cartGetCart db uid with
             items := bumpFirst (cartGetCart db uid).items pid q }) := by
        rw [heq]
        simp [hline]
      refine ⟨_, heqT, ?_, ?_, ?_, ?_⟩
      · intro hinv
        unfold CartInv at hinv ⊢
        show ((bumpFirst (cartGetCart db uid).items pid q).map (fun it => it.productId)).Nodup
        rw [bumpFirst_map_productId]
        exact hinv
      · rw [show (AddItem env db uid pid q).2 = cartSaveCart db { cartGetCart db uid with
            items := bumpFirst (cartGetCart db uid).items pid q } from by rw [heqT]]
        have h3 := cartGetCart_save db { cartGetCart db uid with
          items := bumpFirst (cartGetCart db uid).items pid q }
        rwa [show ({ cartGetCart db uid with
          items := bumpFirst (cartGetCart db uid).items pid q } : Cart).userId = uid
          from huid] at h3
      · intro _
        rfl
      · intro h
        exact absurd h (by simp)
    | false =>
      have hmem : pid ∉ (cartGetCart db uid).items.map (fun it => it.productId) := by
        intro hm
        rw [← hasLine_iff, hline] at hm
        cases hm
      have heqF : AddItem env db uid pid q =
          (.ok { cartGetCart db uid with items := (cartGetCart db uid).items ++
             [(⟨pid, product.name, product.price, q⟩ : CartItem)] },
           cartSaveCart db { cartGetCart db uid with items := (cartGetCart db uid).items ++
             [(⟨pid, product.name, product.price, q⟩ : CartItem)] }) := by
        rw [heq]
        simp [hline]
      refine ⟨_, heqF, ?_, ?_, ?_, ?_⟩
      · intro hinv
        unfold CartInv at hinv ⊢
        show (((cartGetCart db uid).items ++
          [(⟨pid, product.name, product.price, q⟩ : CartItem)]).map
            (fun it => it.productId)).Nodup
        rw [List.map_append, List.nodup_append]
        refine ⟨hinv, List.nodup_singleton _, ?_⟩
        intro a ha hb
        rw [show a = pid from by simpa using hb] at ha
        exact hmem ha
      · rw [show (AddItem env db uid pid q).2 = cartSaveCart db { cartGetCart db uid with
            items := (cartGetCart db uid).items ++ [(⟨pid, product.name, product.price, q⟩ : CartItem)] } from by rw [heqF]]
        have h3 := cartGetCart_save db { cartGetCart db uid with
          items := (cartGetCart db uid).items ++ [(⟨pid, product.name, product.price, q⟩ : CartItem)] }
        rwa [show ({ cartGetCart db uid with
          items := (cartGetCart db uid).items ++ [(⟨pid, product.name, product.price, q⟩ : CartItem)] } : Cart).userId = uid from huid] at h3
      · intro h
        exact absurd h (by simp)
      · intro _
        rfl
  · intro hq hline
    have heq := updateItem_ok_eq env db uid pid q hq hl hsv hline
    refine ⟨_, heq, ?_, ?_⟩
    · intro hinv
      unfold CartInv at hinv ⊢
      show ((setQtyFirst (cartGetCart db uid).items pid q).map (fun it => it.productId)).Nodup
      rw [setQtyFirst_map_productId]
      exact hinv
    · have h2 : (UpdateItem env db uid pid q).2 = cartSaveCart db
          { cartGetCart db uid with items := setQtyFirst (cartGetCart db uid).items pid q } := by
        rw [heq]
      rw [h2]
      have h3 := cartGetCart_save db
        { cartGetCart db uid with items := setQtyFirst (cartGetCart db uid).items pid q }
      rwa [show ({ cartGetCart db uid with
        items := setQtyFirst (cartGetCart db uid).items pid q } : Cart).userId = uid
        from huid] at h3
  · intro hline
    have heq := removeItem_ok_eq env db uid pid hl hsv hline
    refine ⟨_, heq, ?_, ?_⟩
    · intro hinv
      unfold CartInv at hinv ⊢
      show (((cartGetCart db uid).items.eraseP (fun it => it.productId == pid)).map
        (fun it => it.productId)).Nodup
      exact List.Nodup.sublist (List.Sublist.map _ (List.eraseP_sublist _)) hinv
    · have h2 : (RemoveItem env db uid pid).2 = cartSaveCart db
          { cartGetCart db uid with
            items := (cartGetCart db uid).items.eraseP (fun it => it.productId == pid) } := by
        rw [heq]
      rw [h2]
      have h3 := cartGetCart_save db
        { cartGetCart db uid with
          items := (cartGetCart db uid).items.eraseP (fun it => it.productId == pid) }
      rwa [show ({ cartGetCart db uid with
        items := (cartGetCart db uid).items.eraseP (fun it => it.productId == pid) } :
          Cart).userId = uid from huid] at h3
  · intro c hinv
    have hinj : Function.Injective LockKey.stock := fun a b h => by injection h
    have hnd := List.Nodup.map hinj hinv
    rw [List.map_map] at hnd
    exact hnd

/-- Witness for C9: adding product 3 to an empty cart succeeds, the saved cart
is read back, and the invariant holds. -/
theorem claimC9_cartInvariant_witness :
    ∃ cart1, AddItem allOkCartEnv dbC9 2 3 2 = (.ok cart1, cartSaveCart dbC9 cart1) ∧
      (CartInv (cartGetCart dbC9 2) → CartInv cart1) ∧
      cartGetCart (AddItem allOkCartEnv dbC9 2 3 2).2 2 = cart1 ∧
      (hasLine (cartGetCart dbC9 2).items 3 = true →
        cart1.items = bumpFirst (cartGetCart dbC9 2).items 3 2) ∧
      (hasLine (cartGetCart dbC9 2).items 3 = false →
        cart1.items = (cartGetCart dbC9 2).items ++
          [(⟨3, (sampleProduct 3 5 10).name, (sampleProduct 3 5 10).price, 2⟩ : CartItem)]) :=
  (claimC9_cartInvariant allOkCartEnv dbC9 2 3 2 rfl rfl).1 (sampleProduct 3 5 10)
    (by decide) rfl (by decide)

/-- Witness for C6: an order still in pending cannot be advanced at all —
the source status is unmapped. -/
theorem claimC6_advanceEdges_witness :
    UpdateOrderStatus ⟨true⟩ (sampleDB OrderStatusPending) 5 1 OrderStatusShipped =
      (.error (.noValidTransition OrderStatusPending), sampleDB OrderStatusPending) :=
  (claimC6_advanceEdges ⟨true⟩ (sampleDB OrderStatusPending) 5 1 OrderStatusShipped
    (sampleOrder OrderStatusPending []) rfl).1 (by decide) (by decide) (by decide) (by decide)

/-- C10: ProcessPaymentResult applied with a failure event (payment.failed) to
an existing order never changes the order's status and never changes any
product's stock: it sets the linked payment record's status to failed when a
payment record exists, and is a complete no-op (returning no error) when no
payment record exists, so an order whose payment fails remains in its current
status (in particular pending). -/
theorem claimC10_paymentFailedNoop (env : PaymentEnv) (db : DB) (oid : Nat) (order : Order)
    (horder : orderFindByID db oid = some order) :
    (ProcessPaymentResult env db oid false).2.orders = db.orders ∧
    (ProcessPaymentResult env db oid false).2.products = db.products ∧
    orderFindByID (ProcessPaymentResult env db oid false).2 oid = some order ∧
    (∀ pay, findPaymentByOrderID db oid = some pay → env.updatePaymentOk = true →
      ProcessPaymentResult env db oid false =
        (.ok (), updatePayment db { pay with status := PaymentStatusFailed }) ∧
      findPaymentByOrderID (ProcessPaymentResult env db oid false).2 oid =
        some { pay with status := PaymentStatusFailed }) ∧
    (findPaymentByOrderID db oid = none →
      ProcessPaymentResult env db oid false = (.ok (), db)) := by
  have hfr := ppr_failed_frame env db oid
  refine ⟨hfr.1, hfr.2, ?_, ?_, ?_⟩
  · show ((ProcessPaymentResult env db oid false).2).orders.find? (fun o => o.id == oid) =
      some order
    rw [hfr.1]
    exact horder
  · intro pay hp hu
    have heq := ppr_failed_eq_some env db oid order pay horder hp hu
    refine ⟨heq, ?_⟩
    rw [heq]
    exact findPayment_updatePayment _ hp rfl
  · intro hp
    exact ppr_failed_eq_none env db oid order horder hp

/-- Witness for C10: a pending order with a pending payment record; the failure
event marks the payment failed and leaves the orders table unchanged. -/
theorem claimC10_paymentFailedNoop_witness :
    (ProcessPaymentResult allOkPaymentEnv
        { sampleDB OrderStatusPending with payments := [⟨1, PaymentStatusPending⟩] } 1 false).2.orders =
      { sampleDB OrderStatusPending with payments := [⟨1, PaymentStatusPending⟩] }.orders ∧
    ProcessPaymentResult allOkPaymentEnv
        { sampleDB OrderStatusPending with payments := [⟨1, PaymentStatusPending⟩] } 1 false =
      (.ok (), updatePayment { sampleDB OrderStatusPending with payments := [⟨1, PaymentStatusPending⟩] }
        { orderId := 1, status := PaymentStatusFailed }) :=
  ⟨(claimC10_paymentFailedNoop allOkPaymentEnv
      { sampleDB OrderStatusPending with payments := [⟨1, PaymentStatusPending⟩] } 1
      (sampleOrder OrderStatusPending []) rfl).1,
   ((claimC10_paymentFailedNoop allOkPaymentEnv
      { sampleDB OrderStatusPending with payments := [⟨1, PaymentStatusPending⟩] } 1
      (sampleOrder OrderStatusPending []) rfl).2.2.2.1
      ⟨1, PaymentStatusPending⟩ rfl rfl).1⟩

/-- C2 counterexample: the claim says a payment.success replay delivered to an
order already advanced to shipped is a no-op on the order's status; on the code,
ProcessPaymentResult with a success event sets the shipped order's status back
to paid (and returns no error). -/
theorem claimC2_cex :
    (ProcessPaymentResult allOkPaymentEnv (sampleDB OrderStatusShipped) 1 true).1 = .ok () ∧
    orderFindByID (ProcessPaymentResult allOkPaymentEnv (sampleDB OrderStatusShipped) 1 true).2 1 =
      some (sampleOrder OrderStatusPaid []) ∧
    OrderStatusPaid ≠ OrderStatusShipped :=
  ⟨rfl, rfl, by decide⟩

/-- C2 (amended): applying the same payment.success event to the same existing
order twice yields the same final status (paid), returns no error both times,
and changes no product's stock; but a replay delivered to an order already
advanced past paid is not a status no-op — it sets the status back to paid
(the theorem holds for every current status, including shipped). -/
theorem claimC2_paymentSuccessIdem_amended (env : PaymentEnv) (db : DB) (oid : Nat)
    (order : Order) (hu : env.updatePaymentOk = true) (hs : env.updateStatusOk = true)
    (horder : orderFindByID db oid = some order) :
    (ProcessPaymentResult env db oid true).1 = .ok () ∧
    (ProcessPaymentResult env (ProcessPaymentResult env db oid true).2 oid true).1 = .ok () ∧
    orderFindByID (ProcessPaymentResult env db oid true).2 oid =
      some { order with status := OrderStatusPaid } ∧
    orderFindByID (ProcessPaymentResult env (ProcessPaymentResult env db oid true).2 oid true).2
      oid = some { order with status := OrderStatusPaid } ∧
    (ProcessPaymentResult env db oid true).2.products = db.products ∧
    (ProcessPaymentResult env (ProcessPaymentResult env db oid true).2 oid true).2.products =
      db.products := by
  obtain ⟨hf1, hr1, hp1⟩ := ppr_success_sets_paid env db oid order hu hs horder
  obtain ⟨hf2, hr2, hp2⟩ :=
    ppr_success_sets_paid env _ oid { order with status := OrderStatusPaid } hu hs hf1
  exact ⟨hr1, hr2, hf1, hf2, hp1, hp2.trans hp1⟩

/-- Witness for C2: a pending order; two successive success events leave it
paid with no error. -/
theorem claimC2_paymentSuccessIdem_amended_witness :
    orderFindByID (ProcessPaymentResult allOkPaymentEnv
        (ProcessPaymentResult allOkPaymentEnv (sampleDB OrderStatusPending) 1 true).2 1 true).2 1 =
      some { sampleOrder OrderStatusPending [] with status := OrderStatusPaid } :=
  (claimC2_paymentSuccessIdem_amended allOkPaymentEnv (sampleDB OrderStatusPending) 1
    (sampleOrder OrderStatusPending []) rfl rfl rfl).2.2.2.1

/-- C1 counterexample: the claim says no core operation changes a terminal
order's status again; on the code, ProcessPaymentResult with a success event
applied to a completed order sets its status to paid. -/
theorem claimC1_cex :
    (ProcessPaymentResult allOkPaymentEnv (sampleDB OrderStatusCompleted) 1 true).1 = .ok () ∧
    orderFindByID (ProcessPaymentResult allOkPaymentEnv (sampleDB OrderStatusCompleted) 1 true).2 1 =
      some (sampleOrder OrderStatusPaid []) ∧
    OrderStatusPaid ≠ OrderStatusCompleted :=
  ⟨rfl, rfl, by decide⟩

/-- C1 (amended): for an order in a terminal status (completed or cancelled),
buyer Cancel and seller Advance both fail without changing any state, and a
payment.failed event leaves the orders table unchanged; but ProcessPaymentResult
applied to a payment.success event sets even a terminal order's status to paid. -/
theorem claimC1_terminalStatus_amended (db : DB) (oid : Nat) (order : Order)
    (horder : orderFindByID db oid = some order)
    (hterm : order.status = OrderStatusCompleted ∨ order.status = OrderStatusCancelled) :
    (∀ cenv uid, (CancelOrder cenv db uid oid).2 = db ∧
      ∃ e, (CancelOrder cenv db uid oid).1 = .error e) ∧
    (∀ aenv sid st, UpdateOrderStatus aenv db sid oid st =
      (.error (.noValidTransition order.status), db)) ∧
    (∀ penv, (ProcessPaymentResult penv db oid false).2.orders = db.orders) ∧
    (∀ penv, penv.updatePaymentOk = true → penv.updateStatusOk = true →
      orderFindByID (ProcessPaymentResult penv db oid true).2 oid =
        some { order with status := OrderStatusPaid }) := by
  have hcan : CancellableStatuses order.status = false := by
    rcases hterm with h | h <;> rw [h] <;> decide
  have hvt : validTransitions order.status = none := by
    rcases hterm with h | h <;> rw [h] <;> decide
  refine ⟨?_, ?_, ?_, ?_⟩
  · intro cenv uid
    rw [cancelOrder_eq cenv db uid oid order horder]
    by_cases huid : (order.userId == uid) = true
    · rw [if_pos huid, if_neg (by rw [hcan]; exact Bool.false_ne_true)]
      exact ⟨rfl, ⟨_, rfl⟩⟩
    · rw [if_neg huid]
      exact ⟨rfl, ⟨_, rfl⟩⟩
  · intro aenv sid st
    exact updateOrderStatus_nomap aenv db sid oid st order horder hvt
  · intro penv
    exact (ppr_failed_frame penv db oid).1
  · intro penv hu hs
    exact (ppr_success_sets_paid penv db oid order hu hs horder).1

/-- Witness for C1: a completed order; the owner's cancel leaves the state
unchanged, and Advance reports NoValidTransition. -/
theorem claimC1_terminalStatus_amended_witness :
    (CancelOrder allOkCancelEnv (sampleDB OrderStatusCompleted) 2 1).2 =
      sampleDB OrderStatusCompleted ∧
    UpdateOrderStatus ⟨true⟩ (sampleDB OrderStatusCompleted) 5 1 OrderStatusProcessing =
      (.error (.noValidTransition OrderStatusCompleted), sampleDB OrderStatusCompleted) :=
  ⟨((claimC1_terminalStatus_amended (sampleDB OrderStatusCompleted) 1
      (sampleOrder OrderStatusCompleted []) rfl (Or.inl rfl)).1 allOkCancelEnv 2).1,
   (claimC1_terminalStatus_amended (sampleDB OrderStatusCompleted) 1
      (sampleOrder OrderStatusCompleted []) rfl (Or.inl rfl)).2.1 ⟨true⟩ 5 OrderStatusProcessing⟩

/-- C8: the checkout lock loop acquires one stock lock per cart line, all of
them before the validation/apply phases run (on an all-successful loop the lock
store afterwards holds exactly the old locks plus the cart's stock-lock keys,
and the acquired mutex list is exactly those keys); if any acquisition fails,
every already-acquired lock is released and checkout fails with the retryable
coordination error without touching products, orders, carts or payments; and on
every return path of Checkout the lock store is returned (as a multiset) to its
initial state — the checkout holds nothing at return. -/
theorem claimC8_checkoutLocks (env : CheckoutEnv) (db : DB) (uid : Nat) (addr : String) :
    (Checkout env db uid addr).2.locks.Perm db.locks ∧
    ((cartGetCart db uid).items.isEmpty = false →
     (∃ j, j < (cartGetCart db uid).items.length ∧ env.lockOk j = false) →
      ∃ db2, Checkout env db uid addr = (.error .checkoutUnavailable, db2) ∧
        db2.products = db.products ∧ db2.orders = db.orders ∧ db2.carts = db.carts ∧
        db2.payments = db.payments ∧ db2.locks.Perm db.locks) ∧
    ((∀ j, env.lockOk j = true) →
      lockPhase env db.locks (cartGetCart db uid).items 0 [] =
        .ok (db.locks ++ lockKeys (cartGetCart db uid).items,
             lockKeys (cartGetCart db uid).items)) := by
  refine ⟨?_, ?_, ?_⟩
  · cases hemp : (cartGetCart db uid).items.isEmpty with
    | true =>
      rw [checkout_empty_eq env db uid addr hemp]
    | false =>
      cases hlp : lockPhase env db.locks (cartGetCart db uid).items 0 [] with
      | error locks1 =>
        rw [checkout_lockfail_eq env db uid addr locks1 hemp hlp]
        exact (lockPhase_perm env _ db.locks [] db.locks 0 (by simp)).1 locks1 hlp
      | ok pr =>
        rcases pr with ⟨locks1, mutexes⟩
        have hperm := (lockPhase_perm env _ db.locks [] db.locks 0 (by simp)).2 locks1 mutexes hlp
        have hrel := releaseAll_perm mutexes locks1 db.locks hperm
        cases hval : validatePhase db.products (cartGetCart db uid).items with
        | error e =>
          rw [checkout_validatefail_eq env db uid addr locks1 mutexes e hemp hlp hval]
          exact hrel
        | ok pr2 =>
          rcases pr2 with ⟨snaps, total⟩
          cases happ : applyPhase env db.products snaps 0 with
          | error pr3 =>
            rcases pr3 with ⟨products1, i⟩
            rw [checkout_applyfail_eq env db uid addr locks1 mutexes snaps total products1 i
              hemp hlp hval happ]
            exact hrel
          | ok products1 =>
            cases hcr : env.createOk with
            | false =>
              rw [checkout_commitfail_eq env db uid addr locks1 mutexes snaps total products1
                hemp hlp hval happ hcr]
              exact hrel
            | true =>
              cases hdel : env.deleteCartOk with
              | true =>
                rw [checkout_success_eq env db uid addr locks1 mutexes snaps total products1
                  hemp hlp hval happ hcr hdel]
                exact hrel
              | false =>
                rw [checkout_success_nodel_eq env db uid addr locks1 mutexes snaps total
                  products1 hemp hlp hval happ hcr hdel]
                exact hrel
  · intro hemp hfail
    obtain ⟨locks1, hlp⟩ := lockPhase_error_exists env (cartGetCart db uid).items db.locks [] 0
      (by
        rcases hfail with ⟨j, hj, hfj⟩
        exact ⟨j, hj, by simpa using hfj⟩)
    refine ⟨{ db with locks := locks1 },
      checkout_lockfail_eq env db uid addr locks1 hemp hlp, rfl, rfl, rfl, rfl, ?_⟩
    exact (lockPhase_perm env _ db.locks [] db.locks 0 (by simp)).1 locks1 hlp
  · intro hall
    have h := lockPhase_ok_all env (cartGetCart db uid).items db.locks [] 0 hall
    rwa [List.nil_append] at h

/-- Witness for C8: instantiated at the two-line checkout state; the lock
multiset is unchanged by the whole checkout. -/
theorem claimC8_checkoutLocks_witness :
    (Checkout allOkCheckoutEnv dbC5 2 "addr").2.locks.Perm dbC5.locks ∧
    lockPhase allOkCheckoutEnv dbC5.locks (cartGetCart dbC5 2).items 0 [] =
      .ok (dbC5.locks ++ lockKeys (cartGetCart dbC5 2).items,
           lockKeys (cartGetCart dbC5 2).items) :=
  ⟨(claimC8_checkoutLocks allOkCheckoutEnv dbC5 2 "addr").1,
   (claimC8_checkoutLocks allOkCheckoutEnv dbC5 2 "addr").2.2 (fun _ => rfl)⟩

/-- C4: every checkout that fails in the validation phase — a missing product
or insufficient stock — is side-effect-free: no product's stock is modified,
no order is created, the cart (and payments) are unchanged, and the lock store
is returned to its initial state. -/
theorem claimC4_validationSideEffectFree (env : CheckoutEnv) (db : DB) (uid : Nat)
    (addr : String) (e : CheckoutErr)
    (hemp : (cartGetCart db uid).items.isEmpty = false)
    (hlock : ∀ j, env.lockOk j = true)
    (hval : validatePhase db.products (cartGetCart db uid).items = .error e) :
    ∃ db2, Checkout env db uid addr = (.error e, db2) ∧
      db2.products = db.products ∧ db2.orders = db.orders ∧ db2.carts = db.carts ∧
      db2.payments = db.payments ∧ db2.locks.Perm db.locks := by
  have hlp := lockPhase_ok_all env (cartGetCart db uid).items db.locks [] 0 hlock
  rw [List.nil_append] at hlp
  refine ⟨_, checkout_validatefail_eq env db uid addr _ _ e hemp hlp hval,
    rfl, rfl, rfl, rfl, ?_⟩
  exact releaseAll_perm _ _ _ ((lockPhase_perm env _ db.locks [] db.locks 0 (by simp)).2 _ _ hlp)

/-- Witness for C4: the spec scenario — product 2 with stock 0 makes checkout
fail with InsufficientStock and leave the whole state (up to lock multiset)
unchanged. -/
theorem claimC4_validationSideEffectFree_witness :
    ∃ db2, Checkout allOkCheckoutEnv dbC4 2 "addr" = (.error (.insufficientStock "p"), db2) ∧
      db2.products = dbC4.products ∧ db2.orders = dbC4.orders ∧ db2.carts = dbC4.carts ∧
      db2.payments = dbC4.payments ∧ db2.locks.Perm dbC4.locks :=
  claimC4_validationSideEffectFree allOkCheckoutEnv dbC4 2 "addr" (.insufficientStock "p")
    rfl (fun _ => rfl) rfl

/-- C3: for a checkout that fails after validation passed, every
already-applied stock decrement is rolled back to the pre-decrement stock value
captured during validation before the error is returned — positions 0..k-1 when
the apply-phase write at position k fails, all positions when the order-creation
write fails — restoring the product table exactly (when the restore writes
themselves succeed), and the original failure (apply: CheckoutFailed; commit:
order-creation failure), never a rollback error, is reported: the returned
error does not depend on the rollback oracle at all. -/
theorem claimC3_rollback (env : CheckoutEnv) (db : DB) (uid : Nat) (addr : String)
    (snaps : List ItemSnapshot) (total : Int)
    (hemp : (cartGetCart db uid).items.isEmpty = false)
    (hlock : ∀ j, env.lockOk j = true)
    (hval : validatePhase db.products (cartGetCart db uid).items = .ok (snaps, total))
    (hpn : (db.products.map (fun p => p.id)).Nodup)
    (hcn : ((cartGetCart db uid).items.map (fun it => it.productId)).Nodup) :
    (∀ k, k < snaps.length → (∀ j, j < k → env.applyOk j = true) → env.applyOk k = false →
      ∃ db2, Checkout env db uid addr = (.error .checkoutFailed, db2) ∧
        db2.orders = db.orders ∧ db2.carts = db.carts ∧ db2.payments = db.payments ∧
        db2.locks.Perm db.locks ∧
        ((∀ j, env.rollbackOk j = true) → db2.products = db.products)) ∧
    ((∀ j, env.applyOk j = true) → env.createOk = false →
      ∃ db2, Checkout env db uid addr = (.error .createOrderFailed, db2) ∧
        db2.orders = db.orders ∧ db2.carts = db.carts ∧ db2.payments = db.payments ∧
        db2.locks.Perm db.locks ∧
        ((∀ j, env.rollbackOk j = true) → db2.products = db.products)) := by
  have hlp := lockPhase_ok_all env (cartGetCart db uid).items db.locks [] 0 hlock
  rw [List.nil_append] at hlp
  have hrel := releaseAll_perm _ _ db.locks
    ((lockPhase_perm env _ db.locks [] db.locks 0 (by simp)).2 _ _ hlp)
  obtain ⟨hforall, _⟩ := validatePhase_ok_inv db.products _ snaps total hval
  have hfind := validate_snaps_find hforall
  have hsnapids := validate_snaps_ids hforall
  have hsnodup : (snaps.map (fun s => s.product.id)).Nodup := by rw [hsnapids]; exact hcn
  constructor
  · intro k hk hok hfailk
    have happ := applyPhase_error_at env snaps db.products 0 k hk
      (fun j hj => by simpa using hok j hj) (by simpa using hfailk)
    refine ⟨_, checkout_applyfail_eq env db uid addr _ _ snaps total _ _ hemp hlp hval happ,
      rfl, rfl, rfl, hrel, ?_⟩
    intro hrb
    show rollbackSnaps env (applyAll db.products (snaps.take k)) (snaps.take (0 + k)) 0 =
      db.products
    rw [Nat.zero_add]
    refine rollback_applyAll env hrb (snaps.take k) db.products 0 ?_ ?_ hpn
    · intro s hs
      exact hfind s (List.take_subset k snaps hs)
    · rw [List.map_take]
      exact List.Nodup.sublist (List.take_sublist k _) hsnodup
  · intro hallapp hcrfalse
    have happ := applyPhase_ok_all env hallapp snaps db.products 0
    refine ⟨_, checkout_commitfail_eq env db uid addr _ _ snaps total _ hemp hlp hval happ
      hcrfalse, rfl, rfl, rfl, hrel, ?_⟩
    intro hrb
    show rollbackSnaps env (applyAll db.products snaps) snaps 0 = db.products
    exact rollback_applyAll env hrb snaps db.products 0 hfind hsnodup hpn

/-- Witness for C3: the two-line cart with the second apply-phase write
failing; checkout reports CheckoutFailed and the product table is fully
restored. -/
theorem claimC3_rollback_witness :
    ∃ db2, Checkout
        { lockOk := fun _ => true, applyOk := fun j => j == 0, rollbackOk := fun _ => true,
          createOk := true, deleteCartOk := true } dbC5 2 "addr" =
        (.error .checkoutFailed, db2) ∧
      db2.orders = dbC5.orders ∧ db2.carts = dbC5.carts ∧ db2.payments = dbC5.payments ∧
      db2.locks.Perm dbC5.locks ∧ db2.products = dbC5.products := by
  obtain ⟨db2, h1, h2, h3, h4, h5, h6⟩ := (claimC3_rollback
    { lockOk := fun _ => true, applyOk := fun j => j == 0, rollbackOk := fun _ => true,
      createOk := true, deleteCartOk := true } dbC5 2 "addr"
    [snapOf ⟨1, "p", 4, 3⟩ (sampleProduct 1 4 5), snapOf ⟨2, "p", 9, 1⟩ (sampleProduct 2 9 1)]
    21 rfl (fun _ => rfl) rfl (by decide) (by decide)).1
    1 (by decide) (fun j hj => by
      have hj0 : j = 0 := by omega
      subst hj0
      rfl) rfl
  exact ⟨db2, h1, h2, h3, h4, h5, h6 (fun _ => rfl)⟩

/-- C5: a successful checkout of a non-empty cart (all locks and writes
succeeding) decrements each referenced product's stock by exactly that line's
quantity, creates an order in status pending whose per-line price is the
product's current catalog price — not the price snapshot stored in the cart
line — and whose total is the sum over lines of current catalog price times
quantity, appends that order to the orders table, clears the buyer's cart,
and returns the lock store to its initial state. -/
theorem claimC5_checkoutSuccess (env : CheckoutEnv) (db : DB) (uid : Nat) (addr : String)
    (prods : List Product)
    (hlock : ∀ j, env.lockOk j = true) (happly : ∀ j, env.applyOk j = true)
    (hcr : env.createOk = true) (hdel : env.deleteCartOk = true)
    (hne : (cartGetCart db uid).items ≠ [])
    (hva : List.Forall₂ (fun (item : CartItem) (p : Product) =>
      findProduct db.products item.productId = some p ∧ item.quantity ≤ p.stock)
      (cartGetCart db uid).items prods)
    (hcn : CartInv (cartGetCart db uid)) :
    ∃ order db2, Checkout env db uid addr = (.ok order, db2) ∧
      order.status = OrderStatusPending ∧
      order.userId = uid ∧
      order.shippingAddress = addr ∧
      order.orderItems = ((cartGetCart db uid).items.zip prods).map
        (fun x => (⟨x.1.productId, x.1.quantity, x.2.price⟩ : OrderItem)) ∧
      order.totalAmount = (((cartGetCart db uid).items.zip prods).map
        (fun x => x.2.price * x.1.quantity)).sum ∧
      db2.orders = db.orders ++ [order] ∧
      List.Forall₂ (fun (item : CartItem) (p : Product) =>
        findProduct db2.products item.productId =
          some { p with stock := p.stock - item.quantity })
        (cartGetCart db uid).items prods ∧
      (cartGetCart db2 uid).items = [] ∧
      db2.locks.Perm db.locks := by
  have hemp : (cartGetCart db uid).items.isEmpty = false := by
    cases hh : (cartGetCart db uid).items.isEmpty with
    | false => rfl
    | true => exact absurd (List.isEmpty_iff.1 hh) hne
  have hlp := lockPhase_ok_all env (cartGetCart db uid).items db.locks [] 0 hlock
  rw [List.nil_append] at hlp
  have hrel := releaseAll_perm _ _ db.locks
    ((lockPhase_perm env _ db.locks [] db.locks 0 (by simp)).2 _ _ hlp)
  have hval := validatePhase_ok_of_valid db.products hva
  obtain ⟨hforall, _⟩ := validatePhase_ok_inv db.products _ _ _ hval
  have hfind := validate_snaps_find hforall
  have hsnapids := validate_snaps_ids hforall
  have hsnodup : ((((cartGetCart db uid).items.zip prods).map (fun x => snapOf x.1 x.2)).map
      (fun s => s.product.id)).Nodup := by
    rw [hsnapids]
    exact hcn
  have happ := applyPhase_ok_all env happly
    (((cartGetCart db uid).items.zip prods).map (fun x => snapOf x.1 x.2)) db.products 0
  have heq := checkout_success_eq env db uid addr _ _
    (((cartGetCart db uid).items.zip prods).map (fun x => snapOf x.1 x.2))
    ((((cartGetCart db uid).items.zip prods).map (fun x => x.2.price * x.1.quantity)).sum)
    (applyAll db.products (((cartGetCart db uid).items.zip prods).map (fun x => snapOf x.1 x.2)))
    hemp hlp hval happ hcr hdel
  refine ⟨_, _, heq, rfl, rfl, rfl, ?_, rfl, rfl, ?_, ?_, hrel⟩
  · rw [List.map_map]
    rfl
  · rw [List.forall₂_iff_zip]
    refine ⟨List.Forall₂.length_eq hva, ?_⟩
    intro item p hmem
    have hsnapmem : snapOf item p ∈ ((cartGetCart db uid).items.zip prods).map
        (fun x => snapOf x.1 x.2) := List.mem_map_of_mem _ hmem
    have hres := applyAll_find_mem _ db.products hfind hsnodup (snapOf item p) hsnapmem
    have hpid : p.id = item.productId := by
      have hpair := (List.forall₂_iff_zip.1 hva).2 hmem
      exact findProduct_id hpair.1
    show findProduct (applyAll db.products (((cartGetCart db uid).items.zip prods).map
      (fun x => snapOf x.1 x.2))) item.productId = some { p with stock := p.stock - item.quantity }
    rw [← hpid]
    exact hres
  · exact cartDeleteCart_items_nil _ uid

/-- Witness for C5: the spec scenario — a two-line cart (quantity 3 of product
1 with stock 5 and price 4, quantity 1 of product 2 with stock 1 and price 9)
checks out successfully. -/
theorem claimC5_checkoutSuccess_witness :
    ∃ order db2, Checkout allOkCheckoutEnv dbC5 2 "addr" = (.ok order, db2) ∧
      order.status = OrderStatusPending ∧
      order.userId = 2 ∧
      order.shippingAddress = "addr" ∧
      order.orderItems = ((cartGetCart dbC5 2).items.zip
          [sampleProduct 1 4 5, sampleProduct 2 9 1]).map
        (fun x => (⟨x.1.productId, x.1.quantity, x.2.price⟩ : OrderItem)) ∧
      order.totalAmount = (((cartGetCart dbC5 2).items.zip
          [sampleProduct 1 4 5, sampleProduct 2 9 1]).map
        (fun x => x.2.price * x.1.quantity)).sum ∧
      db2.orders = dbC5.orders ++ [order] ∧
      List.Forall₂ (fun (item : CartItem) (p : Product) =>
        findProduct db2.products item.productId =
          some { p with stock := p.stock - item.quantity })
        (cartGetCart dbC5 2).items [sampleProduct 1 4 5, sampleProduct 2 9 1] ∧
      (cartGetCart db2 2).items = [] ∧
      db2.locks.Perm dbC5.locks :=
  claimC5_checkoutSuccess allOkCheckoutEnv dbC5 2 "addr"
    [sampleProduct 1 4 5, sampleProduct 2 9 1]
    (fun _ => rfl) (fun _ => rfl) rfl rfl (by decide)
    (List.Forall₂.cons ⟨rfl, by decide⟩ (List.Forall₂.cons ⟨rfl, by decide⟩ List.Forall₂.nil))
    (show ((cartGetCart dbC5 2).items.map (fun it => it.productId)).Nodup by decide)

end MiniGo
